import Mathlib

/-!
Shallow embedding of the engagement database client of the
AfricasVoices Pipeline-Infrastructure repository
(`src/engagement_database/engagement_database.py` and
`src/engagement_database/data_models.py`), together with proofs about it.

Modelling conventions:
* Python `datetime` values are abstracted as natural numbers; `isoformat` is
  an injective encoding of a datetime into a string and `fromisoformat` its
  partial inverse.
* Firestore document paths are modelled as lists of path segments
  (Firestore paths are segment sequences; the Python code joins them with
  `/`).  `_local_path_for_ref`, which asserts the database-path prefix and
  strips it, becomes a `List.drop` of the root segments.
* Firestore's `SERVER_TIMESTAMP` sentinel is the `DtValue.server`
  constructor; committing a batch resolves it to the store-assigned write
  time, which is passed explicitly to the commit function.
* Fallible Python code (assertions, `AttributeError`, `ValueError`,
  `TypeError`) is modelled with `Except PyError`.
* `uuid.uuid4()` is an external source of fresh randomness; where the code
  generates an id internally the embedding either takes the fresh id as an
  explicit argument or uses the placeholder constant `uuid4_placeholder`.
-/

/-- Python exceptions that the embedded code can raise. -/
inductive PyError where
  | assertionError (message : String)
  | attributeError (typeName attrName : String)
  | valueError (message : String)
  | typeError (message : String)
deriving DecidableEq, Repr

/-- A value that can sit in a datetime-typed slot of a Python object or of a
Firestore document: Python `None`, a concrete datetime (abstracted as a
natural number), a string (produced by `isoformat` serialization), or the
Firestore `SERVER_TIMESTAMP` sentinel. -/
inductive DtValue where
  | pynone
  | dt (t : Nat)
  | str (s : String)
  | server
deriving DecidableEq, Repr

/-- Abstract model of `datetime.isoformat()`: an injective encoding of the
(abstracted) datetime into a string. -/
def datetimeIso (t : Nat) : String :=
  toString t

/-- Abstract model of `datetime.fromisoformat`: the partial inverse of
`datetimeIso`; fails (Python `ValueError`) on strings that do not encode a
datetime. -/
def datetimeFromIso (s : String) : Option Nat :=
  s.toNat?

/-- `isoformat()` as invoked on the value of a datetime slot.  Python only
defines `isoformat` on actual `datetime` objects; calling it on `None`, a
string, or the server-timestamp sentinel raises `AttributeError`. -/
def DtValue.isoformat : DtValue → Except PyError String
  | .dt t => .ok (datetimeIso t)
  | .pynone => .error (.attributeError "NoneType" "isoformat")
  | .str _ => .error (.attributeError "str" "isoformat")
  | .server => .error (.attributeError "Sentinel" "isoformat")

/-- The `if type(x) == str: x = datetime.fromisoformat(x)` pattern used by
every `from_dict` in `data_models.py`: strings are parsed back to datetimes,
all other values are passed through unchanged. -/
def DtValue.parse_if_str : DtValue → Except PyError DtValue
  | .str s =>
      match datetimeFromIso s with
      | some t => .ok (.dt t)
      | none => .error (.valueError ("Invalid isoformat string: " ++ s))
  | v => .ok v

/-- Placeholder for the value of `str(uuid.uuid4())` where the source
generates a fresh random id that the embedding does not thread explicitly. -/
def uuid4_placeholder : String := "<uuid4>"

/-- Placeholder for `Metadata.get_call_location(depth=2)` (an effectful
call-site lookup from the external `core_data_modules` library). -/
def call_location_placeholder : String := "<call-site>"

/-- A Python value appearing in a `details` payload.  `obj` stands for any
object that the standard `json` encoder cannot serialize. -/
inductive PyVal where
  | pynone
  | bool (b : Bool)
  | int (n : Int)
  | str (s : String)
  | list (xs : List PyVal)
  | dict (kvs : List (String × PyVal))
  | obj (typeName : String)

mutual

/-- Whether `json.dumps` succeeds on this value (the check performed by
`HistoryEntryOrigin.validate_details`). -/
def PyVal.jsonSerializable : PyVal → Bool
  | .pynone => true
  | .bool _ => true
  | .int _ => true
  | .str _ => true
  | .list xs => PyVal.listSerializable xs
  | .dict kvs => PyVal.dictSerializable kvs
  | .obj _ => false

/-- `jsonSerializable` on every element of a list. -/
def PyVal.listSerializable : List PyVal → Bool
  | [] => true
  | x :: xs => x.jsonSerializable && PyVal.listSerializable xs

/-- `jsonSerializable` on every value of a dict. -/
def PyVal.dictSerializable : List (String × PyVal) → Bool
  | [] => true
  | kv :: kvs => kv.2.jsonSerializable && PyVal.dictSerializable kvs

end

/-- A scalar value a Firestore `where` clause can compare a document field
against: a string, a document path, or a datetime. -/
inductive QueryVal where
  | str (s : String)
  | pathVal (p : List String)
  | dtVal (v : DtValue)
deriving DecidableEq, Repr

/-- Label from the external `core_data_modules` library (out of scope of this
repository): modelled abstractly as an opaque payload with a faithful
`to_dict`/`from_dict` pair. -/
structure Label where
  label_data : String
deriving DecidableEq, Repr

/-- Serialized form of a `Label`. -/
structure LabelDict where
  label_data : String
deriving DecidableEq, Repr

/-- `Label.to_dict` of the external library. -/
def Label.to_dict (l : Label) : LabelDict :=
  { label_data := l.label_data }

/-- `Label.from_dict` of the external library. -/
def Label.from_dict (d : LabelDict) : Label :=
  { label_data := d.label_data }

/-- `MessageOrigin` (data_models.py lines 27-52). -/
structure MessageOrigin where
  origin_id : String
  origin_type : String
deriving DecidableEq, Repr

/-- Serialized form of a `MessageOrigin`. -/
structure MessageOriginDict where
  origin_id : String
  origin_type : String
deriving DecidableEq, Repr

/-- `MessageOrigin.to_dict` (data_models.py lines 41-45). -/
def MessageOrigin.to_dict (o : MessageOrigin) : MessageOriginDict :=
  { origin_id := o.origin_id, origin_type := o.origin_type }

/-- `MessageOrigin.from_dict` (data_models.py lines 47-52). -/
def MessageOrigin.from_dict (d : MessageOriginDict) : MessageOrigin :=
  { origin_id := d.origin_id, origin_type := d.origin_type }

/-- `MessageStatuses.VALUES` (data_models.py lines 10-17).  The Python set is
modelled as a list with the same membership. -/
def MessageStatuses.VALUES : List String :=
  ["live", "stale", "archived", "anonymised"]

/-- `MessageDirections.VALUES` (data_models.py lines 20-24). -/
def MessageDirections.VALUES : List String :=
  ["in", "out"]

/-- `Message` (data_models.py lines 55-192): field-for-field mirror of the
attributes assigned in `Message.__init__`. -/
structure Message where
  text : String
  timestamp : DtValue
  participant_uuid : String
  direction : String
  channel_operator : String
  status : String
  dataset : String
  labels : List Label
  origin : MessageOrigin
  message_id : String
  coda_id : Option String
  last_updated : DtValue
  previous_datasets : List String
deriving DecidableEq, Repr

/-- `Message.DOC_TYPE` (data_models.py line 56). -/
def Message.DOC_TYPE : String := "message"

/-- `Message.__init__` (data_models.py lines 58-112): generates a message id
when none is given, asserts `status` and `direction` are members of their
enumerated sets (a failed Python `assert` is a fatal `AssertionError`), and
defaults `previous_datasets` to the empty list. -/
def Message.init (text : String) (timestamp : DtValue) (participant_uuid : String)
    (direction : String) (channel_operator : String) (status : String) (dataset : String)
    (labels : List Label) (origin : MessageOrigin)
    (message_id : Option String := none) (coda_id : Option String := none)
    (last_updated : DtValue := .pynone) (previous_datasets : Option (List String) := none) :
    Except PyError Message :=
  let message_id := message_id.getD uuid4_placeholder
  if status ∈ MessageStatuses.VALUES then
    if direction ∈ MessageDirections.VALUES then
      .ok {
        text := text, timestamp := timestamp, participant_uuid := participant_uuid,
        direction := direction, channel_operator := channel_operator, status := status,
        dataset := dataset, labels := labels, origin := origin, message_id := message_id,
        coda_id := coda_id, last_updated := last_updated,
        previous_datasets := previous_datasets.getD [] }
    else .error (.assertionError direction)
  else .error (.assertionError status)

/-- The dict produced by `Message.to_dict` (data_models.py lines 120-152),
modelled as a typed record with the same keys.  `coda_id = none` models the
key being absent from the dict (the source only adds the key when
`self.coda_id is not None`). -/
structure MessageDict where
  text : String
  timestamp : DtValue
  participant_uuid : String
  direction : String
  channel_operator : String
  status : String
  dataset : String
  labels : List LabelDict
  origin : MessageOriginDict
  message_id : String
  last_updated : DtValue
  previous_datasets : List String
  coda_id : Option String
deriving DecidableEq, Repr

/-- The dict literal built by `Message.to_dict` before the
`serialize_datetimes_to_str` branch (data_models.py lines 130-146). -/
def Message.to_dict_base (m : Message) : MessageDict :=
  { text := m.text, timestamp := m.timestamp, participant_uuid := m.participant_uuid,
    direction := m.direction, channel_operator := m.channel_operator, status := m.status,
    dataset := m.dataset, labels := m.labels.map Label.to_dict,
    origin := m.origin.to_dict, message_id := m.message_id,
    last_updated := m.last_updated, previous_datasets := m.previous_datasets,
    coda_id := m.coda_id }

/-- `Message.to_dict` (data_models.py lines 120-152).  With
`serialize_datetimes_to_str=True` the source calls `.isoformat()` on the
`timestamp` and `last_updated` entries, which raises `AttributeError` when
either holds `None` instead of a datetime. -/
def Message.to_dict (m : Message) (serialize_datetimes_to_str : Bool := false) :
    Except PyError MessageDict :=
  let message_dict := m.to_dict_base
  if serialize_datetimes_to_str then do
    let ts ← message_dict.timestamp.isoformat
    let lu ← message_dict.last_updated.isoformat
    pure { message_dict with timestamp := .str ts, last_updated := .str lu }
  else pure message_dict

/-- `Message.from_dict` (data_models.py lines 154-189): converts
string-serialized timestamps back to datetimes and delegates to the
constructor (whose assertions can fail). -/
def Message.from_dict (d : MessageDict) : Except PyError Message := do
  let timestamp ← d.timestamp.parse_if_str
  let last_updated ← d.last_updated.parse_if_str
  Message.init d.text timestamp d.participant_uuid d.direction d.channel_operator
    d.status d.dataset (d.labels.map Label.from_dict) (MessageOrigin.from_dict d.origin)
    (some d.message_id) d.coda_id last_updated (some d.previous_datasets)

/-- `Message.copy` (data_models.py lines 191-192): round-trips the message
through its dict form. -/
def Message.copy (m : Message) : Except PyError Message :=
  Message.from_dict m.to_dict_base

/-- Well-formedness of a constructed `Message`: the enum fields are in their
enumerated sets and the datetime slots do not hold serialized strings.  Every
message produced by `Message.init` from non-string datetime slots satisfies
this; it is what makes `Message.copy` the identity. -/
def Message.wfB (m : Message) : Bool :=
  decide (m.status ∈ MessageStatuses.VALUES) &&
  decide (m.direction ∈ MessageDirections.VALUES) &&
  (match m.timestamp with | .str _ => false | _ => true) &&
  (match m.last_updated with | .str _ => false | _ => true)

/-- Well-formedness of a stored message document: enum fields valid and both
datetime slots hold concrete datetimes.  Documents written by `set_message`
and committed by the store satisfy this. -/
def MessageDict.wfB (d : MessageDict) : Bool :=
  decide (d.status ∈ MessageStatuses.VALUES) &&
  decide (d.direction ∈ MessageDirections.VALUES) &&
  (match d.timestamp with | .dt _ => true | _ => false) &&
  (match d.last_updated with | .dt _ => true | _ => false)

/-- Interpret a well-formed stored document as the `Message` that
`Message.from_dict` returns on it (total companion to `from_dict`). -/
def MessageDict.toMessage (d : MessageDict) : Message :=
  { text := d.text, timestamp := d.timestamp, participant_uuid := d.participant_uuid,
    direction := d.direction, channel_operator := d.channel_operator, status := d.status,
    dataset := d.dataset, labels := d.labels.map Label.from_dict,
    origin := MessageOrigin.from_dict d.origin, message_id := d.message_id,
    coda_id := d.coda_id, last_updated := d.last_updated,
    previous_datasets := d.previous_datasets }

/-- Process-wide defaults set by `HistoryEntryOrigin.set_defaults`
(data_models.py lines 281-286 and 351-369): class-level mutable state,
passed explicitly here. -/
structure HistoryEntryOriginDefaults where
  user : Option String := none
  project : Option String := none
  pipeline : Option String := none
  commit : Option String := none

/-- `HistoryEntryOrigin` (data_models.py lines 280-402). -/
structure HistoryEntryOrigin where
  origin_name : String
  user : String
  project : String
  commit : String
  pipeline : String
  line : String
  details : PyVal

/-- `HistoryEntryOrigin.validate_details` (data_models.py lines 396-402):
`json.dumps(self.details)`, which raises `TypeError` on a value the JSON
encoder cannot serialize. -/
def HistoryEntryOrigin.validate_details (o : HistoryEntryOrigin) : Except PyError Unit :=
  if o.details.jsonSerializable then .ok ()
  else .error (.typeError "Object is not JSON serializable")

/-- `HistoryEntryOrigin.__init__` (data_models.py lines 288-349): fills the
call-site line, falls back on the process-wide defaults for
user/project/pipeline/commit (asserting a default exists), then calls
`validate_details`, so a non-serializable `details` payload fails at
construction time. -/
def HistoryEntryOrigin.init (defaults : HistoryEntryOriginDefaults) (origin_name : String)
    (details : PyVal) (user : Option String := none) (project : Option String := none)
    (pipeline : Option String := none) (commit : Option String := none)
    (line : Option String := none) : Except PyError HistoryEntryOrigin := do
  let line := line.getD call_location_placeholder
  let user ←
    match user, defaults.user with
    | some u, _ => pure u
    | none, some u => pure u
    | none, none => throw (.assertionError "No default user set. Set one with HistoryEventOrigin.set_defaults")
  let project ←
    match project, defaults.project with
    | some p, _ => pure p
    | none, some p => pure p
    | none, none => throw (.assertionError "No default project set. Set one with HistoryEventOrigin.set_defaults")
  let pipeline ←
    match pipeline, defaults.pipeline with
    | some p, _ => pure p
    | none, some p => pure p
    | none, none => throw (.assertionError "No default pipeline set. Set one with HistoryEventOrigin.set_defaults")
  let commit ←
    match commit, defaults.commit with
    | some c, _ => pure c
    | none, none => throw (.assertionError "No default commit set. Set one with HistoryEventOrigin.set_defaults")
    | none, some c => pure c
  let o : HistoryEntryOrigin :=
    { origin_name := origin_name, user := user, project := project, commit := commit,
      pipeline := pipeline, line := line, details := details }
  let _ ← o.validate_details
  pure o

/-- Serialized form of a `HistoryEntryOrigin` (data_models.py lines 371-382). -/
structure HistoryEntryOriginDict where
  origin_name : String
  user : String
  project : String
  commit : String
  pipeline : String
  line : String
  details : PyVal

/-- `HistoryEntryOrigin.to_dict` (data_models.py lines 371-382): re-runs
`validate_details` before serializing. -/
def HistoryEntryOrigin.to_dict (o : HistoryEntryOrigin) : Except PyError HistoryEntryOriginDict := do
  let _ ← o.validate_details
  pure { origin_name := o.origin_name, user := o.user, project := o.project,
         commit := o.commit, pipeline := o.pipeline, line := o.line, details := o.details }

/-- `HistoryEntryOrigin.from_dict` (data_models.py lines 384-394): all
arguments are supplied, so only `validate_details` can fail. -/
def HistoryEntryOrigin.from_dict (d : HistoryEntryOriginDict) : Except PyError HistoryEntryOrigin :=
  HistoryEntryOrigin.init {} d.origin_name d.details (some d.user) (some d.project)
    (some d.pipeline) (some d.commit) (some d.line)

/-- `HistoryEntry` (data_models.py lines 195-277).  The only tracked document
kind in the repository is `Message` (`HistoryEntry.from_dict` rejects every
other `doc_type`), so `updated_doc` is modelled as a `Message`. -/
structure HistoryEntry where
  history_entry_id : String
  db_update_path : List String
  updated_doc : Message
  origin : HistoryEntryOrigin
  timestamp : DtValue
  doc_type : String

/-- `HistoryEntry.DOC_TYPE` (data_models.py line 196). -/
def HistoryEntry.DOC_TYPE : String := "history_entry"

/-- `HistoryEntry.__init__` (data_models.py lines 198-227): generates an id
when none is given; note line 227 always sets `doc_type` from
`updated_doc.DOC_TYPE`, ignoring the `doc_type` argument. -/
def HistoryEntry.init (db_update_path : List String) (updated_doc : Message)
    (origin : HistoryEntryOrigin) (timestamp : DtValue)
    (history_entry_id : Option String := none) (_doc_type : Option String := none) :
    HistoryEntry :=
  { history_entry_id := history_entry_id.getD uuid4_placeholder,
    db_update_path := db_update_path, updated_doc := updated_doc, origin := origin,
    timestamp := timestamp, doc_type := Message.DOC_TYPE }

/-- Stored form of a `HistoryEntry` (data_models.py lines 239-246). -/
structure HistoryEntryDict where
  history_entry_id : String
  db_update_path : List String
  updated_doc : MessageDict
  origin : HistoryEntryOriginDict
  timestamp : DtValue
  doc_type : String

/-- `HistoryEntry.to_dict` (data_models.py lines 229-251): serializes the
nested document and origin (the latter re-validates its details), then
optionally serializes the timestamp to a string. -/
def HistoryEntry.to_dict (h : HistoryEntry) (serialize_datetimes_to_str : Bool := false) :
    Except PyError HistoryEntryDict := do
  let ud ← h.updated_doc.to_dict serialize_datetimes_to_str
  let og ← h.origin.to_dict
  let history_entry_dict : HistoryEntryDict :=
    { history_entry_id := h.history_entry_id, db_update_path := h.db_update_path,
      updated_doc := ud, origin := og, timestamp := h.timestamp, doc_type := h.doc_type }
  if serialize_datetimes_to_str then do
    let ts ← history_entry_dict.timestamp.isoformat
    pure { history_entry_dict with timestamp := .str ts }
  else pure history_entry_dict

/-- `HistoryEntry.from_dict` (data_models.py lines 253-277): parses a
string-serialized timestamp, dispatches on `doc_type` (raising `ValueError`
on an unknown tag), and reconstructs the nested document and origin. -/
def HistoryEntry.from_dict (d : HistoryEntryDict) : Except PyError HistoryEntry := do
  let timestamp ← d.timestamp.parse_if_str
  if d.doc_type = Message.DOC_TYPE then do
    let ud ← Message.from_dict d.updated_doc
    let og ← HistoryEntryOrigin.from_dict d.origin
    pure (HistoryEntry.init d.db_update_path ud og timestamp (some d.history_entry_id)
      (some d.doc_type))
  else throw (.valueError ("Unknown doc_type " ++ d.doc_type))

/-- The scalar field values of a stored history entry that a Firestore
`where` clause can see, looked up by field name.  `updated_doc` and `origin`
are map-valued and are never compared against a scalar, so they are not
listed; a name that is not a field of the document yields `none`, and a
`where` clause on a missing field matches no documents. -/
def HistoryEntryDict.query_field (d : HistoryEntryDict) (name : String) : Option QueryVal :=
  if name = "history_entry_id" then some (.str d.history_entry_id)
  else if name = "db_update_path" then some (.pathVal d.db_update_path)
  else if name = "timestamp" then some (.dtVal d.timestamp)
  else if name = "doc_type" then some (.str d.doc_type)
  else none

/-- `CommandLogEntry` (data_models.py lines 405-431): note the class defines
no `timestamp` attribute and no `copy` method. -/
structure CommandLogEntry where
  command_log_entry_id : String
  command : String
  user : String
  project : String
  commit : String
  line : String
deriving DecidableEq, Repr

/-- `CommandLogEntry.DOC_TYPE` (data_models.py line 406). -/
def CommandLogEntry.DOC_TYPE : String := "command_log_entry"

/-- The attributes the `CommandLogEntry` class gives its instances (its six
`__init__` fields, its two methods and the class constant).  In particular
neither `copy` nor `timestamp` is among them, so reading either raises
`AttributeError` in Python. -/
def CommandLogEntry.attr_names : List String :=
  ["command_log_entry_id", "command", "user", "project", "commit", "line",
   "to_dict", "from_dict", "DOC_TYPE"]

/-- `CommandLogEntry.__init__` (data_models.py lines 408-417). -/
def CommandLogEntry.init (command : String) (user : String) (project : String)
    (commit : String) (line : String) (command_log_entry_id : Option String := none) :
    CommandLogEntry :=
  { command_log_entry_id := command_log_entry_id.getD uuid4_placeholder,
    command := command, user := user, project := project, commit := commit, line := line }

/-- Serialized form of a `CommandLogEntry` (data_models.py lines 419-427). -/
structure CommandLogEntryDict where
  command_log_entry_id : String
  command : String
  user : String
  project : String
  commit : String
  line : String
deriving DecidableEq, Repr

/-- `CommandLogEntry.to_dict` (data_models.py lines 419-427). -/
def CommandLogEntry.to_dict (e : CommandLogEntry) : CommandLogEntryDict :=
  { command_log_entry_id := e.command_log_entry_id, command := e.command,
    user := e.user, project := e.project, commit := e.commit, line := e.line }

/-- `CommandLogEntry.from_dict` (data_models.py lines 429-431): the body of
the source method is only `pass`, so the call always returns Python `None`
(modelled as `Option.none`) instead of a `CommandLogEntry`. -/
def CommandLogEntry.from_dict (_d : CommandLogEntryDict) : Option CommandLogEntry :=
  none

/-- A document stored in Firestore.  Firestore documents are untyped dicts;
the constructor records which record shape the dict has (the client only ever
writes message dicts under `messages/`, history dicts under `history/` and
command log dicts under `command_logs/`). -/
inductive StoredDoc where
  | msg (d : MessageDict)
  | hist (d : HistoryEntryDict)
  | clog (d : CommandLogEntryDict)

/-- The state of the Firestore backend: an association of document paths
(segment lists) to documents, in backend enumeration order. -/
abbrev FsStore : Type := List (List String × StoredDoc)

/-- One pending operation of a batched write/transaction:
`transaction.set(ref, doc)`. -/
structure WriteOp where
  path : List String
  doc : StoredDoc

/-- Firestore `set` semantics: writing a document at a path replaces the
document already there, or adds the document when the path was vacant.  It
never fails on an existing document (that is `create`, which the engagement
database client does not use). -/
def FsStore.set (store : FsStore) (path : List String) (doc : StoredDoc) : FsStore :=
  if store.any (fun pd => decide (pd.1 = path)) then
    store.map (fun pd => if pd.1 = path then (path, doc) else pd)
  else store ++ [(path, doc)]

/-- The document currently stored at a path, if any. -/
def FsStore.get (store : FsStore) (path : List String) : Option StoredDoc :=
  (store.find? (fun pd => decide (pd.1 = path))).map (fun pd => pd.2)

/-- Committing resolves the `SERVER_TIMESTAMP` sentinel to the store-assigned
write time. -/
def DtValue.resolve (server_time : Nat) : DtValue → DtValue
  | .server => .dt server_time
  | v => v

/-- Resolve the sentinel in the datetime slots of a stored message dict. -/
def MessageDict.resolve (server_time : Nat) (d : MessageDict) : MessageDict :=
  { d with timestamp := d.timestamp.resolve server_time,
           last_updated := d.last_updated.resolve server_time }

/-- Resolve the sentinel in a stored history entry dict (including its nested
document snapshot). -/
def HistoryEntryDict.resolve (server_time : Nat) (d : HistoryEntryDict) : HistoryEntryDict :=
  { d with timestamp := d.timestamp.resolve server_time,
           updated_doc := d.updated_doc.resolve server_time }

/-- Resolve the sentinel in any stored document. -/
def StoredDoc.resolve (server_time : Nat) : StoredDoc → StoredDoc
  | .msg d => .msg (d.resolve server_time)
  | .hist d => .hist (d.resolve server_time)
  | .clog d => .clog d

/-- Commit a batch/transaction: apply its operations to the store in order,
resolving server timestamps to the store-assigned write time. -/
def commitOps (store : FsStore) (ops : List WriteOp) (server_time : Nat) : FsStore :=
  ops.foldl (fun s op => s.set op.path (op.doc.resolve server_time)) store

/-- `EngagementDatabase` (engagement_database.py lines 10-22): holds the path
of the parent database document. -/
structure EngagementDatabase where
  database_path : List String

/-- `_message_ref` (engagement_database.py lines 51-55). -/
def EngagementDatabase.message_ref (db : EngagementDatabase) (message_id : String) :
    List String :=
  db.database_path ++ ["messages", message_id]

/-- `_history_entry_ref` (engagement_database.py lines 45-49). -/
def EngagementDatabase.history_entry_ref (db : EngagementDatabase) (history_entry_id : String) :
    List String :=
  db.database_path ++ ["history", history_entry_id]

/-- `_command_log_entry_ref` (engagement_database.py lines 57-61). -/
def EngagementDatabase.command_log_entry_ref (db : EngagementDatabase)
    (command_log_entry_id : String) : List String :=
  db.database_path ++ ["command_logs", command_log_entry_id]

/-- `_local_path_for_ref` (engagement_database.py lines 41-43): asserts the
reference lies under the database path and strips that prefix. -/
def EngagementDatabase.local_path_for_ref (db : EngagementDatabase) (ref : List String) :
    List String :=
  ref.drop db.database_path.length

/-- Whether a document path lies in the named top-level collection of the
database (`messages`, `history` or `command_logs`). -/
def EngagementDatabase.in_collection (db : EngagementDatabase) (name : String)
    (path : List String) : Bool :=
  decide (path.take (db.database_path.length + 1) = db.database_path ++ [name])

/-- The message dicts currently stored in the database's `messages`
collection, in backend order (`self._messages_ref()` as a query source). -/
def EngagementDatabase.msgDocs (db : EngagementDatabase) (store : FsStore) :
    List MessageDict :=
  store.filterMap (fun pd =>
    if db.in_collection "messages" pd.1 then
      match pd.2 with
      | .msg d => some d
      | _ => none
    else none)

/-- The history entry dicts currently stored in the database's `history`
collection (`self._history_ref()` as a query source). -/
def EngagementDatabase.histDocs (db : EngagementDatabase) (store : FsStore) :
    List HistoryEntryDict :=
  store.filterMap (fun pd =>
    if db.in_collection "history" pd.1 then
      match pd.2 with
      | .hist d => some d
      | _ => none
    else none)

/-- The slice of the store that belongs to the `history` collection, with
paths (used to state that a write adds exactly one history document). -/
def EngagementDatabase.historyCol (db : EngagementDatabase) (store : FsStore) : FsStore :=
  store.filter (fun pd => db.in_collection "history" pd.1)

/-- `set_message` (engagement_database.py lines 208-251), up to the commit:
copies the message, stamps `last_updated` with the server-timestamp sentinel,
opens a fresh batch when no transaction is supplied (remembering to commit it
before returning), appends the message write at the message's path, builds
the paired `HistoryEntry` (with a fresh id, its `db_update_path` the message
path relative to the database root, and the stamped copy as `updated_doc`),
and appends the history write.  Returns the transaction operation list and
the commit flag. -/
def EngagementDatabase.set_message (db : EngagementDatabase) (message : Message)
    (origin : HistoryEntryOrigin) (transaction : Option (List WriteOp))
    (fresh_history_entry_id : String) : Except PyError (List WriteOp × Bool) := do
  let message ← message.copy
  let message := { message with last_updated := DtValue.server }
  let (txn, commit_before_returning) :=
    match transaction with
    | none => (([] : List WriteOp), true)
    | some t => (t, false)
  let message_dict ← message.to_dict
  let txn := txn ++ [⟨db.message_ref message.message_id, .msg message_dict⟩]
  let history_entry := HistoryEntry.init
    (db.local_path_for_ref (db.message_ref message.message_id)) message origin
    DtValue.server (some fresh_history_entry_id)
  let history_entry_dict ← history_entry.to_dict
  let txn := txn ++ [⟨db.history_entry_ref history_entry.history_entry_id, .hist history_entry_dict⟩]
  pure (txn, commit_before_returning)

/-- `set_message` together with its effect on the store: when the function
opened its own batch it commits it before returning (the store advances and
no transaction is handed back); when the caller supplied a transaction the
store is untouched and the extended operation list is handed back to the
caller, uncommitted. -/
def EngagementDatabase.set_message_run (db : EngagementDatabase) (store : FsStore)
    (server_time : Nat) (message : Message) (origin : HistoryEntryOrigin)
    (transaction : Option (List WriteOp)) (fresh_history_entry_id : String) :
    Except PyError (FsStore × Option (List WriteOp)) := do
  let (txn, commit_before_returning) ←
    db.set_message message origin transaction fresh_history_entry_id
  if commit_before_returning then
    pure (commitOps store txn server_time, none)
  else
    pure (store, some txn)

/-- `get_history_for_message` (engagement_database.py lines 108-125): queries
the history collection with `.where("update_path", "==", message_ref.path)`
— the field name `update_path` (stored history entries carry the field
`db_update_path`) compared against the absolute document path (stored
entries hold the path relative to the database root) — then applies the
caller's filter and deserializes. -/
def EngagementDatabase.get_history_for_message (db : EngagementDatabase) (store : FsStore)
    (message_id : String) (firestore_query_filter : HistoryEntryDict → Bool) :
    Except PyError (List HistoryEntry) := do
  let message_ref := db.message_ref message_id
  let docs := (db.histDocs store).filter
    (fun d => d.query_field "update_path" == some (QueryVal.pathVal message_ref))
  let docs := docs.filter firestore_query_filter
  docs.mapM HistoryEntry.from_dict

/-- `set_command_log_entry` (engagement_database.py lines 273-283).  Its
first statement, `command_log_entry = command_log_entry.copy()`, looks up the
attribute `copy` on the entry; `CommandLogEntry` defines no such attribute
(see `CommandLogEntry.attr_names`; line 276 would likewise read the
nonexistent `timestamp` attribute), so in Python every call raises
`AttributeError` before anything is written.  The embedding performs the
same attribute-table check; the branch for a present `copy` attribute embeds
the remaining statements of the function (the write of the entry's dict at
its path, auto-committed only when no transaction was supplied). -/
def EngagementDatabase.set_command_log_entry (db : EngagementDatabase) (store : FsStore)
    (command_log_entry : CommandLogEntry) (transaction : Option (List WriteOp)) :
    Except PyError (FsStore × Option (List WriteOp)) :=
  if "copy" ∈ CommandLogEntry.attr_names then
    let d := command_log_entry.to_dict
    let ref := db.command_log_entry_ref command_log_entry.command_log_entry_id
    match transaction with
    | none => .ok (store.set ref (.clog d), none)
    | some t => .ok (store, some (t ++ [⟨ref, .clog d⟩]))
  else .error (.attributeError "CommandLogEntry" "copy")

/-- The value Firestore orders a datetime-typed field by.  Stored message
documents always hold a concrete datetime in `last_updated` (the commit
resolves the sentinel), which is the case the well-formedness predicates
require; the other constructors are given an arbitrary fixed key. -/
def DtValue.orderKey : DtValue → Nat
  | .dt t => t
  | _ => 0

/-- The compound ordering key `(last_updated, message_id)` used by the
batched `get_messages` query (engagement_database.py line 175). -/
def qkey (d : MessageDict) : Nat × String :=
  (d.last_updated.orderKey, d.message_id)

/-- Strict lexicographic order on compound keys. -/
def keyLt (a b : Nat × String) : Bool :=
  decide (a.1 < b.1) || (decide (a.1 = b.1) && decide (a.2 < b.2))

/-- The (total) order by which Firestore returns the documents of the
batched query: ascending on the compound key. -/
def qle (a b : MessageDict) : Bool :=
  !(keyLt (qkey b) (qkey a))

/-- One `query.start_after(cursor).get()` call of the batched fetch
(engagement_database.py line 183): Firestore resumes strictly after the
cursor's ordering-field values and returns the next `batch_size` documents. -/
def page_after (sorted : List MessageDict) (batch_size : Nat) (cursor : MessageDict) :
    List MessageDict :=
  (sorted.filter (fun d => keyLt (qkey cursor) (qkey d))).take batch_size

/-- The `while last_msg is not None` loop of the batched `get_messages`
(engagement_database.py lines 181-185): fetch the page after the cursor,
deserialize and accumulate it, and continue from the page's last raw
document until a fetch comes back empty.  Also counts the number of `.get`
page fetches the loop performs. -/
def fetchLoop (sorted : List MessageDict) (batch_size : Nat) (cursor : MessageDict) :
    Except PyError (List Message × Nat) := do
  let batch := page_after sorted batch_size cursor
  let msgs ← batch.mapM Message.from_dict
  match hb : batch.getLast? with
  | none => pure (msgs, 1)
  | some lastDoc => do
      let (rest, n) ← fetchLoop sorted batch_size lastDoc
      pure (msgs ++ rest, n + 1)
termination_by (sorted.filter (fun d => keyLt (qkey cursor) (qkey d))).length
decreasing_by
  have hmem : lastDoc ∈ sorted.filter (fun d => keyLt (qkey cursor) (qkey d)) :=
    List.take_subset _ _ (List.mem_of_mem_getLast? hb)
  have hcl : keyLt (qkey cursor) (qkey lastDoc) = true := (List.mem_filter.mp hmem).2
  have htrans : ∀ a b c : Nat × String, keyLt a b = true → keyLt b c = true →
      keyLt a c = true := by
    intro a b c h1 h2
    simp only [keyLt, Bool.or_eq_true, Bool.and_eq_true, decide_eq_true_eq] at h1 h2 ⊢
    rcases h1 with h1 | ⟨h1e, h1s⟩ <;> rcases h2 with h2 | ⟨h2e, h2s⟩
    · exact Or.inl (lt_trans h1 h2)
    · exact Or.inl (lt_of_lt_of_eq h1 h2e)
    · exact Or.inl (lt_of_eq_of_lt h1e h2)
    · exact Or.inr ⟨h1e.trans h2e, lt_trans h1s h2s⟩
  have hirr : keyLt (qkey lastDoc) (qkey lastDoc) = false := by
    simp [keyLt]
  have hsubeq : sorted.filter (fun d => keyLt (qkey lastDoc) (qkey d)) =
      (sorted.filter (fun d => keyLt (qkey cursor) (qkey d))).filter
        (fun d => keyLt (qkey lastDoc) (qkey d)) := by
    rw [List.filter_filter]
    refine (List.filter_congr ?_)
    intro d _
    cases hd : keyLt (qkey lastDoc) (qkey d)
    · simp
    · simp [htrans _ _ _ hcl hd]
  rw [hsubeq]
  exact List.length_filter_lt_length_iff_exists.mpr ⟨lastDoc, hmem, by simp [hirr]⟩

/-- The number of fetches the batched loop performs when `n` documents
remain after the first page's cursor: one fetch per full-or-partial batch of
the remainder, plus the final empty fetch that ends the loop. -/
def loopCount (batch_size : Nat) (n : Nat) : Nat :=
  if h : n = 0 ∨ batch_size = 0 then 1
  else 1 + loopCount batch_size (n - batch_size)
termination_by n
decreasing_by omega

/-- The post-accumulation sort (engagement_database.py line 192):
`messages.sort(key=lambda msg: msg.last_updated, reverse=True)` — a stable
sort, most recently updated first. -/
def sort_messages_desc (messages : List Message) : List Message :=
  messages.mergeSort (fun a b => decide (b.last_updated.orderKey ≤ a.last_updated.orderKey))

/-- The de-duplication pass (engagement_database.py lines 194-201): walk the
sorted list, keeping a message only when its id has not been seen yet. -/
def de_duplicate_by_id (messages : List Message) (seen_ids : List String) : List Message :=
  match messages with
  | [] => []
  | msg :: rest =>
      if msg.message_id ∈ seen_ids then de_duplicate_by_id rest seen_ids
      else msg :: de_duplicate_by_id rest (msg.message_id :: seen_ids)

/-- The full post-processing of the accumulated pages (engagement_database.py
lines 187-204): sort by `last_updated` descending, then de-duplicate by
message id keeping the first (most recently updated) occurrence. -/
def sort_and_deduplicate (messages : List Message) : List Message :=
  de_duplicate_by_id (sort_messages_desc messages) []

/-- The core of `get_messages` (engagement_database.py lines 143-206) over
the `where` predicate of the caller's query, instrumented with the number of
Firestore `.get` calls it issues.  The full filter semantics — a caller's
`firestore_query_filter` may also chain a `limit` clause — live in
`get_messages_query` below; with a batch size the source calls
`.limit(batch_size)` (line 176), which replaces any caller-supplied limit,
so the batched execution coincides with this function on the query's
`where` predicate.  With no batch size: one fetch of everything matching
the predicate.  With a batch size: the query is ordered by
`(last_updated, message_id)`, fetched page by page with a start-after cursor
(first page at engagement_database.py line 178, the loop at lines 181-185,
its first cursor being the last *parsed* message of the first page), and the
accumulated result is sorted and de-duplicated (lines 187-204). -/
def EngagementDatabase.get_messages_fetches (db : EngagementDatabase) (store : FsStore)
    (firestore_query_filter : MessageDict → Bool) (batch_size : Option Nat) :
    Except PyError (List Message × Nat) := do
  let docs := (db.msgDocs store).filter firestore_query_filter
  match batch_size with
  | none => do
      let msgs ← docs.mapM Message.from_dict
      pure (msgs, 1)
  | some b => do
      let sorted := docs.mergeSort qle
      let data := sorted.take b
      let messages ← data.mapM Message.from_dict
      match messages.getLast? with
      | none => pure (sort_and_deduplicate messages, 1)
      | some last_msg => do
          let (rest, n) ← fetchLoop sorted b last_msg.to_dict_base
          pure (sort_and_deduplicate (messages ++ rest), n + 1)

/-- One clause a caller's `firestore_query_filter` can chain onto the query
it is given: a `where`-style filter (modelled as a predicate over the stored
document) or a result `limit`.  `order_by` transforms are not modelled: for
an unbatched read they affect only the order in which the documents are
returned, and the batched read appends its own compound ordering
(engagement_database.py line 175). -/
inductive QueryClause where
  | whereFilter (p : MessageDict → Bool)
  | limitTo (n : Nat)

/-- The state of a Firestore query over one collection: the conjunction of
its `where` clauses and its current result limit.  Firestore's
`Query.limit(n)` *replaces* any previously set limit — which is what makes
`.limit(batch_size)` at engagement_database.py line 176 silently override a
caller-supplied limit. -/
structure FsQuery where
  pred : MessageDict → Bool
  limitN : Option Nat

/-- Chain one clause onto a query. -/
def FsQuery.applyClause (q : FsQuery) : QueryClause → FsQuery
  | .whereFilter p => { q with pred := fun d => q.pred d && p d }
  | .limitTo n => { q with limitN := some n }

/-- Apply a caller's filter — the clauses it chains, in order — to a query. -/
def FsQuery.applyClauses (q : FsQuery) (clauses : List QueryClause) : FsQuery :=
  clauses.foldl FsQuery.applyClause q

/-- Execute a query against the documents of its collection: keep the
documents matching every `where` clause, then apply the limit, if any. -/
def FsQuery.run (q : FsQuery) (docs : List MessageDict) : List MessageDict :=
  match q.limitN with
  | none => docs.filter q.pred
  | some n => (docs.filter q.pred).take n

/-- `get_messages` (engagement_database.py lines 143-206) with the caller's
`firestore_query_filter` modelled as the list of query clauses it chains
onto the query it receives.  With no batch size, one fetch runs the
caller's query as built — honouring a caller `limit`.  With a batch size,
the source appends its own orderings and calls `.limit(batch_size)` (line
176), replacing any caller-supplied limit, so the batched execution depends
on the caller's filter only through its `where` predicate and is exactly
`get_messages_fetches` on that predicate. -/
def EngagementDatabase.get_messages_query (db : EngagementDatabase) (store : FsStore)
    (firestore_query_filter : List QueryClause) (batch_size : Option Nat) :
    Except PyError (List Message × Nat) :=
  let query := FsQuery.applyClauses ⟨fun _ => true, none⟩ firestore_query_filter
  match batch_size with
  | none => do
      let data := query.run (db.msgDocs store)
      let msgs ← data.mapM Message.from_dict
      pure (msgs, 1)
  | some b => db.get_messages_fetches store query.pred (some b)

/-- `get_messages` as the caller sees it: the fetched messages without the
fetch-count instrumentation. -/
def EngagementDatabase.get_messages (db : EngagementDatabase) (store : FsStore)
    (firestore_query_filter : List QueryClause) (batch_size : Option Nat) :
    Except PyError (List Message) :=
  (db.get_messages_query store firestore_query_filter batch_size).map Prod.fst

/-! ### Concrete example inputs (used by witnesses and counterexamples) -/

/-- An engagement database rooted at `databases/test`. -/
def db0 : EngagementDatabase := ⟨["databases", "test"]⟩

/-- A fully-specified, serializable history entry origin. -/
def og0 : HistoryEntryOrigin :=
  { origin_name := "Test Origin", user := "user@avf.org", project := "proj",
    commit := "c1", pipeline := "pipe", line := "L1", details := PyVal.pynone }

/-- The dict form of `og0`. -/
def ogd0 : HistoryEntryOriginDict :=
  { origin_name := "Test Origin", user := "user@avf.org", project := "proj",
    commit := "c1", pipeline := "pipe", line := "L1", details := PyVal.pynone }

/-- A valid message that has never been written (null `last_updated`). -/
def msg0 : Message :=
  { text := "hello", timestamp := .dt 1, participant_uuid := "p1", direction := "in",
    channel_operator := "hormuud", status := "live", dataset := "d1", labels := [],
    origin := ⟨"o1", "rapid_pro"⟩, message_id := "m1", coda_id := none,
    last_updated := .pynone, previous_datasets := [] }

/-- A second version of `msg0`: same `message_id`, different text. -/
def msg_v2 : Message :=
  { msg0 with text := "second version" }

/-- A command log entry. -/
def cle0 : CommandLogEntry :=
  ⟨"cl1", "python run.py", "user@avf.org", "proj", "c1", "L2"⟩

/-- A well-formed stored message document with id `m1`. -/
def mdoc1 : MessageDict :=
  { text := "t1", timestamp := .dt 1, participant_uuid := "p1", direction := "in",
    channel_operator := "hormuud", status := "live", dataset := "d1", labels := [],
    origin := ⟨"o1", "rapid_pro"⟩, message_id := "m1", last_updated := .dt 10,
    previous_datasets := [], coda_id := none }

/-- A well-formed stored message document with id `m2`. -/
def mdoc2 : MessageDict :=
  { text := "t2", timestamp := .dt 2, participant_uuid := "p2", direction := "out",
    channel_operator := "telegram", status := "stale", dataset := "d2", labels := [],
    origin := ⟨"o2", "rapid_pro"⟩, message_id := "m2", last_updated := .dt 20,
    previous_datasets := [], coda_id := none }

/-- A store holding two committed messages. -/
def store_w : FsStore :=
  [(db0.message_ref "m1", .msg mdoc1), (db0.message_ref "m2", .msg mdoc2)]

/-- The history entry document `set_message(msg0, og0)` commits at write time 5. -/
def hist_doc0 : HistoryEntryDict :=
  { history_entry_id := "h1", db_update_path := ["messages", "m1"],
    updated_doc := { msg0.to_dict_base with last_updated := DtValue.dt 5 },
    origin := ogd0, timestamp := .dt 5, doc_type := "message" }

/-- The store after `set_message(msg0, og0)` auto-committed at write time 5:
the message at its canonical path and its paired history entry. -/
def store_c3 : FsStore :=
  [(db0.message_ref "m1", .msg { msg0.to_dict_base with last_updated := DtValue.dt 5 }),
   (db0.history_entry_ref "h1", .hist hist_doc0)]

/-- Distinct message ids for the 130-message pagination scenario. -/
def idOf (i : Nat) : String :=
  String.mk (List.replicate i 'm')

/-- The `i`-th of 130 stored messages, with distinct ids and write times. -/
def docOf (i : Nat) : MessageDict :=
  { text := "t", timestamp := .dt 0, participant_uuid := "p", direction := "in",
    channel_operator := "hormuud", status := "live", dataset := "d", labels := [],
    origin := ⟨"o", "rapid_pro"⟩, message_id := idOf i, last_updated := .dt i,
    previous_datasets := [], coda_id := none }

/-- A store holding 130 committed messages with distinct ids. -/
def store130 : FsStore :=
  (List.range 130).map (fun i => (db0.message_ref (idOf i), StoredDoc.msg (docOf i)))

/-! ### Round-trip and parsing lemmas -/

/-- `Label` round-trips through its dict form. -/
theorem label_roundtrip (l : Label) : Label.from_dict (Label.to_dict l) = l := rfl

/-- `MessageOrigin` round-trips through its dict form. -/
theorem message_origin_roundtrip (o : MessageOrigin) :
    MessageOrigin.from_dict (MessageOrigin.to_dict o) = o := rfl

/-- With the default `serialize_datetimes_to_str=False`, `Message.to_dict`
just returns the dict. -/
theorem Message.to_dict_false (m : Message) : m.to_dict false = .ok m.to_dict_base := rfl

/-- `parse_if_str` is the identity on non-string datetime slots. -/
theorem DtValue.parse_if_str_of_not_str (v : DtValue)
    (h : (match v with | .str _ => false | _ => true) = true) :
    v.parse_if_str = .ok v := by
  cases v <;> simp_all [DtValue.parse_if_str]

/-- A well-formed message is reproduced exactly by
`from_dict(to_dict(m))`, i.e. `Message.copy` is the identity on it. -/
theorem Message.copy_eq (m : Message) (hm : m.wfB = true) : m.copy = .ok m := by
  simp only [Message.wfB, Bool.and_eq_true, decide_eq_true_eq] at hm
  obtain ⟨⟨⟨hs, hd⟩, hts⟩, hlu⟩ := hm
  unfold Message.copy Message.from_dict
  rw [show m.to_dict_base.timestamp = m.timestamp from rfl,
      show m.to_dict_base.last_updated = m.last_updated from rfl,
      DtValue.parse_if_str_of_not_str _ hts, DtValue.parse_if_str_of_not_str _ hlu]
  simp only [bind, Except.bind, Message.init, Message.to_dict_base]
  rw [if_pos hs, if_pos hd]
  simp [List.map_map, Function.comp_def, label_roundtrip, message_origin_roundtrip]

/-- `Message.from_dict` on a well-formed stored document succeeds and
returns `MessageDict.toMessage` of it. -/
theorem MessageDict.from_dict_eq (d : MessageDict) (hd : d.wfB = true) :
    Message.from_dict d = .ok d.toMessage := by
  simp only [MessageDict.wfB, Bool.and_eq_true, decide_eq_true_eq] at hd
  obtain ⟨⟨⟨hs, hdir⟩, hts⟩, hlu⟩ := hd
  have hts' : d.timestamp.parse_if_str = .ok d.timestamp := by
    cases h : d.timestamp <;> simp_all [DtValue.parse_if_str]
  have hlu' : d.last_updated.parse_if_str = .ok d.last_updated := by
    cases h : d.last_updated <;> simp_all [DtValue.parse_if_str]
  unfold Message.from_dict
  rw [hts', hlu']
  simp only [bind, Except.bind, Message.init]
  rw [if_pos hs, if_pos hdir]
  rfl

/-- `to_dict` after `toMessage` restores the stored document exactly. -/
theorem MessageDict.to_dict_base_toMessage (d : MessageDict) :
    d.toMessage.to_dict_base = d := by
  simp [MessageDict.toMessage, Message.to_dict_base, List.map_map, Function.comp_def,
    MessageOrigin.to_dict, MessageOrigin.from_dict, Label.to_dict, Label.from_dict]

/-- `mapM Message.from_dict` on a list of well-formed stored documents
succeeds and is the pointwise `toMessage`. -/
theorem mapM_from_dict_wf (l : List MessageDict) (h : ∀ d ∈ l, d.wfB = true) :
    l.mapM Message.from_dict = .ok (l.map MessageDict.toMessage) := by
  induction l with
  | nil => rfl
  | cons d rest ih =>
      rw [List.mapM_cons, MessageDict.from_dict_eq d (h d (List.mem_cons_self d rest))]
      rw [ih (fun x hx => h x (List.mem_cons_of_mem d hx))]
      rfl

/-! ### Store lemmas -/

/-- After a `set`, the written document is what `get` returns at that path. -/
theorem FsStore.get_set_self (store : FsStore) (path : List String) (doc : StoredDoc) :
    (store.set path doc).get path = some doc := by
  unfold FsStore.set FsStore.get
  by_cases hany : store.any (fun pd => decide (pd.1 = path)) = true
  · rw [if_pos hany]
    induction store with
    | nil => simp at hany
    | cons hd tl ih =>
        rw [List.any_cons] at hany
        by_cases hhd : hd.1 = path
        · simp [List.find?_cons, hhd]
        · have htl : tl.any (fun pd => decide (pd.1 = path)) = true := by
            rcases Bool.or_eq_true_iff.mp hany with h | h
            · exact absurd (of_decide_eq_true h) hhd
            · exact h
          simp only [List.map_cons, if_neg hhd, List.find?_cons, decide_eq_false hhd]
          exact ih htl
  · rw [if_neg hany]
    rw [Bool.not_eq_true, List.any_eq_false] at hany
    have hfind : store.find? (fun pd => decide (pd.1 = path)) = none := by
      rw [List.find?_eq_none]
      intro pd hpd
      simpa using hany pd hpd
    rw [List.find?_append, hfind]
    simp

/-- A `set` at one path leaves the document at any other path unchanged. -/
theorem FsStore.get_set_ne (store : FsStore) (path other : List String) (doc : StoredDoc)
    (hne : other ≠ path) : (store.set path doc).get other = store.get other := by
  have hne2 : ¬ (path = other) := fun h => hne h.symm
  unfold FsStore.set FsStore.get
  by_cases hany : store.any (fun pd => decide (pd.1 = path)) = true
  · rw [if_pos hany]
    clear hany
    congr 1
    induction store with
    | nil => rfl
    | cons hd tl ih =>
        by_cases hhd : hd.1 = path
        · have hhd3 : ¬ (hd.1 = other) := by rw [hhd]; exact hne2
          simp only [List.map_cons, if_pos hhd, List.find?_cons, decide_eq_false hne2,
            decide_eq_false hhd3]
          exact ih
        · simp only [List.map_cons, if_neg hhd, List.find?_cons]
          cases heq : decide (hd.1 = other) <;> simp [ih]
  · rw [if_neg hany, List.find?_append]
    cases hfind : store.find? (fun pd => decide (pd.1 = other)) with
    | none => simp [List.find?_cons, decide_eq_false hne2]
    | some pd => simp

/-- A `set` outside the `history` collection does not change the `history`
slice of the store. -/
theorem EngagementDatabase.historyCol_set_other (db : EngagementDatabase) (store : FsStore)
    (path : List String) (doc : StoredDoc) (h : db.in_collection "history" path = false) :
    db.historyCol (store.set path doc) = db.historyCol store := by
  unfold FsStore.set EngagementDatabase.historyCol
  by_cases hany : store.any (fun pd => decide (pd.1 = path)) = true
  · rw [if_pos hany]
    clear hany
    induction store with
    | nil => rfl
    | cons hd tl ih =>
        by_cases hhd : hd.1 = path
        · have hh : db.in_collection "history" hd.1 = false := by rw [hhd]; exact h
          simp only [List.map_cons, if_pos hhd, List.filter_cons, h, hh]
          simpa using ih
        · simp only [List.map_cons, if_neg hhd, List.filter_cons]
          cases hc : db.in_collection "history" hd.1 <;> simp [ih]
  · rw [if_neg hany, List.filter_append]
    simp [List.filter_cons, h]

/-- A `set` of a fresh document inside the `history` collection appends
exactly that document to the `history` slice of the store. -/
theorem EngagementDatabase.historyCol_set_fresh (db : EngagementDatabase) (store : FsStore)
    (path : List String) (doc : StoredDoc) (hin : db.in_collection "history" path = true)
    (hfresh : store.get path = none) :
    db.historyCol (store.set path doc) = db.historyCol store ++ [(path, doc)] := by
  have hfind : store.find? (fun pd => decide (pd.1 = path)) = none := by
    unfold FsStore.get at hfresh
    cases hf : store.find? (fun pd => decide (pd.1 = path)) with
    | none => rfl
    | some pd => rw [hf] at hfresh; simp at hfresh
  have hany : store.any (fun pd => decide (pd.1 = path)) = false := by
    rw [List.any_eq_false]
    intro pd hpd
    have := List.find?_eq_none.mp hfind pd hpd
    simpa using this
  unfold FsStore.set EngagementDatabase.historyCol
  rw [if_neg (by simp [hany]), List.filter_append]
  simp [List.filter_cons, hin]

/-! ### Path lemmas -/

/-- The collection slice of a two-segment document path under the database
root is its first segment. -/
theorem take_root_collection (root : List String) (a b : String) :
    (root ++ [a, b]).take (root.length + 1) = root ++ [a] := by
  rw [List.take_append_eq_append_take]
  simp

/-- Which collection a `root/{a}/{b}` document path belongs to. -/
theorem EngagementDatabase.in_collection_pair (db : EngagementDatabase) (name a b : String) :
    db.in_collection name (db.database_path ++ [a, b]) = decide (a = name) := by
  unfold EngagementDatabase.in_collection
  rw [take_root_collection]
  simp

/-- Stripping the database-path prefix from a document reference recovers
the collection-relative path. -/
theorem EngagementDatabase.local_path_message_ref (db : EngagementDatabase)
    (message_id : String) :
    db.local_path_for_ref (db.message_ref message_id) = ["messages", message_id] := by
  unfold EngagementDatabase.local_path_for_ref EngagementDatabase.message_ref
  simp

/-- Message references and history references are always distinct paths. -/
theorem EngagementDatabase.message_ref_ne_history_ref (db : EngagementDatabase)
    (message_id history_entry_id : String) :
    db.message_ref message_id ≠ db.history_entry_ref history_entry_id := by
  unfold EngagementDatabase.message_ref EngagementDatabase.history_entry_ref
  intro h
  have := List.append_cancel_left h
  simp at this

/-! ### Commit lemmas for two-operation batches -/

/-- Committing a two-operation batch: the first operation's document is
readable at its path afterwards (when the second write went elsewhere). -/
theorem FsStore.get_commit_two (store : FsStore) (o1 o2 : WriteOp) (t : Nat)
    (hne : o1.path ≠ o2.path) :
    (commitOps store [o1, o2] t).get o1.path = some (o1.doc.resolve t) := by
  show ((store.set o1.path (o1.doc.resolve t)).set o2.path (o2.doc.resolve t)).get o1.path = _
  rw [FsStore.get_set_ne _ _ _ _ hne, FsStore.get_set_self]

/-- Committing a two-operation batch whose first write lies outside the
`history` collection and whose second write is a fresh history document
appends exactly that one document to the `history` slice. -/
theorem EngagementDatabase.historyCol_commit_two (db : EngagementDatabase) (store : FsStore)
    (o1 o2 : WriteOp) (t : Nat)
    (h1 : db.in_collection "history" o1.path = false)
    (h2 : db.in_collection "history" o2.path = true)
    (hne : o2.path ≠ o1.path)
    (hfresh : store.get o2.path = none) :
    db.historyCol (commitOps store [o1, o2] t) =
      db.historyCol store ++ [(o2.path, o2.doc.resolve t)] := by
  show db.historyCol ((store.set o1.path (o1.doc.resolve t)).set o2.path (o2.doc.resolve t)) = _
  rw [EngagementDatabase.historyCol_set_fresh _ _ _ _ h2
        (by rw [FsStore.get_set_ne _ _ _ _ hne]; exact hfresh),
      EngagementDatabase.historyCol_set_other _ _ _ _ h1]

/-- The two operations `set_message` stages, in both transaction modes: the
re-stamped message at its path, then the paired history entry at its fresh
path; the commit flag is set exactly when no transaction was supplied. -/
theorem set_message_ops_eq (db : EngagementDatabase) (m : Message) (og : HistoryEntryOrigin)
    (fid : String) (hm : m.wfB = true) (hog : og.details.jsonSerializable = true) :
    ∀ tr : Option (List WriteOp), db.set_message m og tr fid =
      .ok ((tr.getD []) ++
        [⟨db.message_ref m.message_id,
          .msg { m.to_dict_base with last_updated := DtValue.server }⟩,
         ⟨db.history_entry_ref fid,
          .hist { history_entry_id := fid,
                  db_update_path := db.local_path_for_ref (db.message_ref m.message_id),
                  updated_doc := { m.to_dict_base with last_updated := DtValue.server },
                  origin := { origin_name := og.origin_name, user := og.user,
                              project := og.project, commit := og.commit,
                              pipeline := og.pipeline, line := og.line,
                              details := og.details },
                  timestamp := DtValue.server, doc_type := Message.DOC_TYPE }⟩],
        tr.isNone) := by
  have hcopy : m.copy = .ok m := Message.copy_eq m hm
  have hval : og.validate_details = .ok () := by
    simp [HistoryEntryOrigin.validate_details, hog]
  have hogd : og.to_dict = .ok
      { origin_name := og.origin_name, user := og.user, project := og.project,
        commit := og.commit, pipeline := og.pipeline, line := og.line,
        details := og.details } := by
    simp [HistoryEntryOrigin.to_dict, hval, bind, Except.bind, pure, Except.pure]
  intro tr
  cases tr <;>
    simp [EngagementDatabase.set_message, hcopy, bind, Except.bind, pure, Except.pure,
      Message.to_dict, Message.to_dict_base, HistoryEntry.to_dict, HistoryEntry.init, hogd]

/-- Auto-commit mode of `set_message` at the store level: the two staged
operations are committed before returning and no transaction is handed
back. -/
theorem set_message_run_none_eq (db : EngagementDatabase) (store : FsStore)
    (server_time : Nat) (m : Message) (og : HistoryEntryOrigin) (fid : String)
    (hm : m.wfB = true) (hog : og.details.jsonSerializable = true) :
    db.set_message_run store server_time m og none fid =
      .ok (commitOps store
        [⟨db.message_ref m.message_id,
          .msg { m.to_dict_base with last_updated := DtValue.server }⟩,
         ⟨db.history_entry_ref fid,
          .hist { history_entry_id := fid,
                  db_update_path := db.local_path_for_ref (db.message_ref m.message_id),
                  updated_doc := { m.to_dict_base with last_updated := DtValue.server },
                  origin := { origin_name := og.origin_name, user := og.user,
                              project := og.project, commit := og.commit,
                              pipeline := og.pipeline, line := og.line,
                              details := og.details },
                  timestamp := DtValue.server, doc_type := Message.DOC_TYPE }⟩]
        server_time, none) := by
  simp only [EngagementDatabase.set_message_run, set_message_ops_eq db m og fid hm hog none,
    bind, Except.bind, Option.getD, Option.isNone, List.nil_append]
  rfl

/-! ### C1: the `set_message` write contract -/

/-- C1.  For every call to `set_message(message, origin, transaction?)` (on a
valid message, a serializable origin and a fresh history entry id): the
caller's message is copied and the copy's `last_updated` is set to the
store-assigned write-time marker; the copy is written at the message's
canonical path `messages/{message_id}` and exactly one new `HistoryEntry` is
created, whose `db_update_path` is that same path (relative to the database
root) and whose `updated_doc` is the post-write message snapshot.  If
`transaction` is `None`, both writes are grouped into a new batch committed
before returning (the returned store holds the resolved message document and
exactly one new history document); if a transaction is supplied, both
operations are appended to it and it is never committed (the store is
untouched). -/
theorem set_message_contract (db : EngagementDatabase) (store : FsStore) (server_time : Nat)
    (m : Message) (og : HistoryEntryOrigin) (fid : String)
    (hm : m.wfB = true) (hog : og.details.jsonSerializable = true)
    (hfresh : store.get (db.history_entry_ref fid) = none) :
    ∃ msg_doc hd,
      msg_doc = { m.to_dict_base with last_updated := DtValue.server } ∧
      hd.history_entry_id = fid ∧
      hd.db_update_path = ["messages", m.message_id] ∧
      hd.updated_doc = msg_doc ∧
      hd.timestamp = DtValue.server ∧
      db.set_message m og none fid =
        .ok ([⟨db.message_ref m.message_id, .msg msg_doc⟩,
              ⟨db.history_entry_ref fid, .hist hd⟩], true) ∧
      (∀ t0, db.set_message m og (some t0) fid =
        .ok (t0 ++ [⟨db.message_ref m.message_id, .msg msg_doc⟩,
                    ⟨db.history_entry_ref fid, .hist hd⟩], false)) ∧
      (∃ store1,
        db.set_message_run store server_time m og none fid = .ok (store1, none) ∧
        store1.get (db.message_ref m.message_id) =
          some (.msg (msg_doc.resolve server_time)) ∧
        db.historyCol store1 =
          db.historyCol store ++
            [(db.history_entry_ref fid, .hist (hd.resolve server_time))]) ∧
      (∀ t0, db.set_message_run store server_time m og (some t0) fid =
        .ok (store, some (t0 ++ [⟨db.message_ref m.message_id, .msg msg_doc⟩,
                                 ⟨db.history_entry_ref fid, .hist hd⟩]))) := by
  have hcopy : m.copy = .ok m := Message.copy_eq m hm
  have hval : og.validate_details = .ok () := by
    simp [HistoryEntryOrigin.validate_details, hog]
  have hogd : og.to_dict = .ok
      { origin_name := og.origin_name, user := og.user, project := og.project,
        commit := og.commit, pipeline := og.pipeline, line := og.line,
        details := og.details } := by
    simp [HistoryEntryOrigin.to_dict, hval, bind, Except.bind, pure, Except.pure]
  have hsm := set_message_ops_eq db m og fid hm hog
  have hmsg_not_hist : db.in_collection "history" (db.message_ref m.message_id) = false := by
    rw [EngagementDatabase.message_ref, EngagementDatabase.in_collection_pair]
    simp
  have hhist_in_hist : db.in_collection "history" (db.history_entry_ref fid) = true := by
    rw [EngagementDatabase.history_entry_ref, EngagementDatabase.in_collection_pair]
    simp
  refine ⟨{ m.to_dict_base with last_updated := DtValue.server },
    { history_entry_id := fid,
      db_update_path := db.local_path_for_ref (db.message_ref m.message_id),
      updated_doc := { m.to_dict_base with last_updated := DtValue.server },
      origin := { origin_name := og.origin_name, user := og.user, project := og.project,
                  commit := og.commit, pipeline := og.pipeline, line := og.line,
                  details := og.details },
      timestamp := DtValue.server, doc_type := Message.DOC_TYPE },
    rfl, rfl, db.local_path_message_ref m.message_id, rfl, rfl, ?_, ?_, ?_, ?_⟩
  · simpa using hsm none
  · intro t0
    simpa using hsm (some t0)
  · have hrun : db.set_message_run store server_time m og none fid =
        .ok (commitOps store
          [⟨db.message_ref m.message_id,
            .msg { m.to_dict_base with last_updated := DtValue.server }⟩,
           ⟨db.history_entry_ref fid,
            .hist { history_entry_id := fid,
                    db_update_path := db.local_path_for_ref (db.message_ref m.message_id),
                    updated_doc := { m.to_dict_base with last_updated := DtValue.server },
                    origin := { origin_name := og.origin_name, user := og.user,
                                project := og.project, commit := og.commit,
                                pipeline := og.pipeline, line := og.line,
                                details := og.details },
                    timestamp := DtValue.server, doc_type := Message.DOC_TYPE }⟩]
          server_time, none) := by
      simp only [EngagementDatabase.set_message_run, hsm none, bind, Except.bind,
        Option.getD, Option.isNone, List.nil_append]
      rfl
    refine ⟨_, hrun, ?_, ?_⟩
    · exact FsStore.get_commit_two store _ _ server_time
        (db.message_ref_ne_history_ref m.message_id fid)
    · exact db.historyCol_commit_two store _ _ server_time hmsg_not_hist hhist_in_hist
        (Ne.symm (db.message_ref_ne_history_ref m.message_id fid)) hfresh
  · intro t0
    simp only [EngagementDatabase.set_message_run, hsm (some t0), bind, Except.bind,
      Option.getD, Option.isNone]
    rfl

/-- Witness for C1: the contract applied to a concrete database, message,
origin and fresh id on the empty store. -/
theorem set_message_contract_witness :
    (msg0.wfB = true ∧ og0.details.jsonSerializable = true ∧
      FsStore.get [] (db0.history_entry_ref "h1") = none) ∧
    (∃ msg_doc hd,
      msg_doc = { msg0.to_dict_base with last_updated := DtValue.server } ∧
      hd.history_entry_id = "h1" ∧
      hd.db_update_path = ["messages", msg0.message_id] ∧
      hd.updated_doc = msg_doc ∧
      hd.timestamp = DtValue.server ∧
      db0.set_message msg0 og0 none "h1" =
        .ok ([⟨db0.message_ref msg0.message_id, .msg msg_doc⟩,
              ⟨db0.history_entry_ref "h1", .hist hd⟩], true) ∧
      (∀ t0, db0.set_message msg0 og0 (some t0) "h1" =
        .ok (t0 ++ [⟨db0.message_ref msg0.message_id, .msg msg_doc⟩,
                    ⟨db0.history_entry_ref "h1", .hist hd⟩], false)) ∧
      (∃ store1,
        db0.set_message_run [] 5 msg0 og0 none "h1" = .ok (store1, none) ∧
        store1.get (db0.message_ref msg0.message_id) =
          some (.msg (msg_doc.resolve 5)) ∧
        db0.historyCol store1 =
          db0.historyCol [] ++ [(db0.history_entry_ref "h1", .hist (hd.resolve 5))]) ∧
      (∀ t0, db0.set_message_run [] 5 msg0 og0 (some t0) "h1" =
        .ok (([] : FsStore),
          some (t0 ++ [⟨db0.message_ref msg0.message_id, .msg msg_doc⟩,
                       ⟨db0.history_entry_ref "h1", .hist hd⟩])))) := by
  have h1 : msg0.wfB = true := by decide
  have h2 : og0.details.jsonSerializable = true := by simp [og0, PyVal.jsonSerializable]
  have h3 : FsStore.get [] (db0.history_entry_ref "h1") = none := rfl
  exact ⟨⟨h1, h2, h3⟩, set_message_contract db0 [] 5 msg0 og0 "h1" h1 h2 h3⟩

/-! ### C3: `get_history_for_message` queries a field no history entry has -/

/-- C3.  `get_history_for_message` filters the history collection on the
field `update_path`, but history entries (as written by `set_message` and
serialized by `HistoryEntry.to_dict`) only carry the field `db_update_path`,
and the compared value is the absolute document path while the stored value
is relative to the database root.  Consequently the query matches nothing:
for every database, store, message id and caller filter the call returns the
empty list — even on a store (`store_c3`, the result of a committed
`set_message` of `msg0`) that does contain a history entry whose
`db_update_path` equals the message's canonical path `messages/m1`. -/
theorem get_history_for_message_matches_nothing :
    (∀ (db : EngagementDatabase) (store : FsStore) (message_id : String)
        (f : HistoryEntryDict → Bool),
      db.get_history_for_message store message_id f = .ok []) ∧
    ((db0.histDocs store_c3).filter
        (fun d => decide (d.db_update_path = ["messages", "m1"]))).length = 1 ∧
    db0.get_history_for_message store_c3 "m1" (fun _ => true) = .ok [] := by
  refine ⟨?_, rfl, ?_⟩
  · intro db store message_id f
    have hfil : (db.histDocs store).filter
        (fun d => d.query_field "update_path" ==
          some (QueryVal.pathVal (db.message_ref message_id))) = [] :=
      List.filter_eq_nil_iff.mpr (fun d _ => by simp [HistoryEntryDict.query_field])
    simp only [EngagementDatabase.get_history_for_message, hfil, List.filter_nil]
    rfl
  · have hfil : (db0.histDocs store_c3).filter
        (fun d => d.query_field "update_path" ==
          some (QueryVal.pathVal (db0.message_ref "m1"))) = [] :=
      List.filter_eq_nil_iff.mpr (fun d _ => by simp [HistoryEntryDict.query_field])
    simp only [EngagementDatabase.get_history_for_message, hfil, List.filter_nil]
    rfl

/-! ### C4: `CommandLogEntry.from_dict` is a stub -/

/-- C4.  `CommandLogEntry.from_dict`'s body is `pass`, so deserializing the
dict produced by `to_dict` returns `None` instead of reproducing the entry:
the two-way `to_dict`/`from_dict` contract fails for `CommandLogEntry`. -/
theorem command_log_entry_from_dict_returns_none :
    CommandLogEntry.from_dict (CommandLogEntry.to_dict cle0) = none := rfl

/-! ### C7: `set_command_log_entry` reads attributes its entry type lacks -/

/-- C7.  Every call to `set_command_log_entry` fails with `AttributeError`:
its first statement calls `command_log_entry.copy()`, and the
`CommandLogEntry` class defines no `copy` attribute (nor the `timestamp`
attribute the next statement would read), so nothing is ever stamped or
written. -/
theorem set_command_log_entry_attribute_error (db : EngagementDatabase) (store : FsStore)
    (e : CommandLogEntry) (tr : Option (List WriteOp)) :
    db.set_command_log_entry store e tr =
      .error (.attributeError "CommandLogEntry" "copy") := by
  unfold EngagementDatabase.set_command_log_entry
  rw [if_neg (by decide)]

/-! ### C9: enum and serializability violations are fatal at construction -/

/-- C9.  Constructing a `Message` whose `status` or `direction` lies outside
its enumerated set fails with the constructor's assertion error, and
constructing a `HistoryEntryOrigin` whose `details` payload is not
JSON-serializable fails with the `TypeError` of `validate_details` — all
before any write is attempted (the constructors never touch a store), and
none of these errors is caught internally. -/
theorem construction_validation_fatal :
    (∀ text timestamp participant_uuid direction channel_operator status dataset labels
        origin message_id coda_id last_updated previous_datasets,
      status ∉ MessageStatuses.VALUES →
      Message.init text timestamp participant_uuid direction channel_operator status
        dataset labels origin message_id coda_id last_updated previous_datasets =
        .error (.assertionError status)) ∧
    (∀ text timestamp participant_uuid direction channel_operator status dataset labels
        origin message_id coda_id last_updated previous_datasets,
      status ∈ MessageStatuses.VALUES → direction ∉ MessageDirections.VALUES →
      Message.init text timestamp participant_uuid direction channel_operator status
        dataset labels origin message_id coda_id last_updated previous_datasets =
        .error (.assertionError direction)) ∧
    (∀ (defaults : HistoryEntryOriginDefaults) origin_name details user project pipeline
        commit line,
      details.jsonSerializable = false →
      HistoryEntryOrigin.init defaults origin_name details (some user) (some project)
        (some pipeline) (some commit) line =
        .error (.typeError "Object is not JSON serializable")) := by
  refine ⟨?_, ?_, ?_⟩
  · intro text timestamp participant_uuid direction channel_operator status dataset labels
      origin message_id coda_id last_updated previous_datasets h
    simp [Message.init, h]
  · intro text timestamp participant_uuid direction channel_operator status dataset labels
      origin message_id coda_id last_updated previous_datasets hs hd
    simp [Message.init, hs, hd]
  · intro defaults origin_name details user project pipeline commit line h
    simp [HistoryEntryOrigin.init, HistoryEntryOrigin.validate_details, h, bind,
      Except.bind, pure, Except.pure]

/-- Witness for C9: a bogus status, a bogus direction and a non-serializable
`details` payload each make construction fail. -/
theorem construction_validation_fatal_witness :
    ("bogus" ∉ MessageStatuses.VALUES ∧ "live" ∈ MessageStatuses.VALUES ∧
      "sideways" ∉ MessageDirections.VALUES ∧
      (PyVal.obj "socket").jsonSerializable = false) ∧
    Message.init "hi" (.dt 1) "p1" "in" "op" "bogus" "d" [] ⟨"o", "t"⟩ (some "m1") none
      .pynone (some []) = .error (.assertionError "bogus") ∧
    Message.init "hi" (.dt 1) "p1" "sideways" "op" "live" "d" [] ⟨"o", "t"⟩ (some "m1") none
      .pynone (some []) = .error (.assertionError "sideways") ∧
    HistoryEntryOrigin.init {} "Test" (PyVal.obj "socket") (some "u") (some "p") (some "pl")
      (some "c") (some "L") = .error (.typeError "Object is not JSON serializable") := by
  have hobj : (PyVal.obj "socket").jsonSerializable = false := by
    simp [PyVal.jsonSerializable]
  refine ⟨⟨by decide, by decide, by decide, hobj⟩, ?_, ?_, ?_⟩
  · exact construction_validation_fatal.1 "hi" (.dt 1) "p1" "in" "op" "bogus" "d" [] ⟨"o", "t"⟩
      (some "m1") none .pynone (some []) (by decide)
  · exact construction_validation_fatal.2.1 "hi" (.dt 1) "p1" "sideways" "op" "live" "d" []
      ⟨"o", "t"⟩ (some "m1") none .pynone (some []) (by decide) (by decide)
  · exact construction_validation_fatal.2.2 {} "Test" (PyVal.obj "socket") "u" "p" "pl" "c"
      (some "L") hobj

/-! ### C10: string serialization of a never-written message fails -/

/-- C10.  For every message whose `last_updated` is `None` (never written to
the store), `to_dict(serialize_datetimes_to_str=True)` raises instead of
returning a dict (the source calls `.isoformat()` on the `None` slot), while
`to_dict()` with the default argument succeeds and returns the dict. -/
theorem to_dict_str_requires_last_updated (m : Message)
    (h : m.last_updated = DtValue.pynone) :
    (m.to_dict true).isOk = false ∧ m.to_dict false = .ok m.to_dict_base := by
  refine ⟨?_, rfl⟩
  have hlu : m.to_dict_base.last_updated = DtValue.pynone := h
  cases ht : m.timestamp <;>
    simp [Message.to_dict, DtValue.isoformat, bind, Except.bind, Except.isOk, Except.toBool,
      show m.to_dict_base.timestamp = m.timestamp from rfl, ht, hlu]

/-- Witness for C10: `msg0` has a null `last_updated`. -/
theorem to_dict_str_requires_last_updated_witness :
    msg0.last_updated = DtValue.pynone ∧
    ((msg0.to_dict true).isOk = false ∧ msg0.to_dict false = .ok msg0.to_dict_base) :=
  ⟨rfl, to_dict_str_requires_last_updated msg0 rfl⟩

/-! ### C8: `set_message` has set (upsert) semantics, not create semantics -/

/-- C8 counterexample.  Calling `set_message` twice with the same
`message_id` (here `m1`, first `msg0` then `msg_v2`) does not make the
second call fail with AlreadyExists: both calls return successfully, and the
second silently overwrites the first message document at the canonical path
(the stored document changes from the first message's dict to the second
message's dict). -/
theorem set_message_duplicate_id_overwrites :
    ∃ store1 store2,
      db0.set_message_run [] 5 msg0 og0 none "h1" = .ok (store1, none) ∧
      FsStore.get store1 (db0.message_ref "m1") =
        some (.msg { msg0.to_dict_base with last_updated := DtValue.dt 5 }) ∧
      db0.set_message_run store1 6 msg_v2 og0 none "h2" = .ok (store2, none) ∧
      FsStore.get store2 (db0.message_ref "m1") =
        some (.msg { msg_v2.to_dict_base with last_updated := DtValue.dt 6 }) ∧
      ({ msg_v2.to_dict_base with last_updated := DtValue.dt 6 } : MessageDict) ≠
        { msg0.to_dict_base with last_updated := DtValue.dt 5 } := by
  refine ⟨_, _, set_message_run_none_eq db0 [] 5 msg0 og0 "h1" (by decide) (by
      simp [og0, PyVal.jsonSerializable]), ?_, set_message_run_none_eq _ _ 6 msg_v2 og0 "h2"
      (by decide) (by simp [og0, PyVal.jsonSerializable]), ?_, by decide⟩
  · exact FsStore.get_commit_two [] _ _ 5 (db0.message_ref_ne_history_ref "m1" "h1")
  · exact FsStore.get_commit_two _ _ _ 6 (db0.message_ref_ne_history_ref "m1" "h2")

/-- C8 amended.  Writing a message document at a path that already holds one
overwrites it (Firestore `set` semantics; the client has no create-mode
path): a second `set_message` with the same `message_id` succeeds and
replaces the stored message document with the re-stamped copy of the second
message. -/
theorem set_message_upsert (db : EngagementDatabase) (store : FsStore) (t1 t2 : Nat)
    (m1 m2 : Message) (og1 og2 : HistoryEntryOrigin) (f1 f2 : String)
    (hm1 : m1.wfB = true) (hog1 : og1.details.jsonSerializable = true)
    (hm2 : m2.wfB = true) (hog2 : og2.details.jsonSerializable = true)
    (hid : m2.message_id = m1.message_id) :
    ∃ store1 store2,
      db.set_message_run store t1 m1 og1 none f1 = .ok (store1, none) ∧
      db.set_message_run store1 t2 m2 og2 none f2 = .ok (store2, none) ∧
      FsStore.get store2 (db.message_ref m1.message_id) =
        some (.msg ({ m2.to_dict_base with last_updated := DtValue.server }.resolve t2)) := by
  refine ⟨_, _, set_message_run_none_eq db store t1 m1 og1 f1 hm1 hog1,
    set_message_run_none_eq db _ t2 m2 og2 f2 hm2 hog2, ?_⟩
  rw [← hid]
  exact FsStore.get_commit_two _ _ _ t2 (db.message_ref_ne_history_ref m2.message_id f2)

/-- Witness for the amended C8: the two concrete duplicate-id writes. -/
theorem set_message_upsert_witness :
    (msg0.wfB = true ∧ og0.details.jsonSerializable = true ∧ msg_v2.wfB = true ∧
      msg_v2.message_id = msg0.message_id) ∧
    (∃ store1 store2,
      db0.set_message_run [] 5 msg0 og0 none "h1" = .ok (store1, none) ∧
      db0.set_message_run store1 6 msg_v2 og0 none "h2" = .ok (store2, none) ∧
      FsStore.get store2 (db0.message_ref msg0.message_id) =
        some (.msg ({ msg_v2.to_dict_base with last_updated := DtValue.server }.resolve 6))) := by
  have hog : og0.details.jsonSerializable = true := by simp [og0, PyVal.jsonSerializable]
  exact ⟨⟨by decide, hog, by decide, rfl⟩,
    set_message_upsert db0 [] 5 6 msg0 msg_v2 og0 og0 "h1" "h2" (by decide) hog (by decide)
      hog rfl⟩

/-! ### De-duplication and sorting lemmas -/

/-- The de-duplication pass only drops elements. -/
theorem de_duplicate_sublist (l : List Message) (seen : List String) :
    (de_duplicate_by_id l seen).Sublist l := by
  induction l generalizing seen with
  | nil => simp [de_duplicate_by_id]
  | cons m rest ih =>
      rw [de_duplicate_by_id]
      by_cases h : m.message_id ∈ seen
      · rw [if_pos h]
        exact (ih seen).cons m
      · rw [if_neg h]
        exact (ih (m.message_id :: seen)).cons₂ m

/-- The ids surviving the de-duplication pass are pairwise distinct and
disjoint from the already-seen ids. -/
theorem de_duplicate_ids_nodup (l : List Message) (seen : List String) :
    ((de_duplicate_by_id l seen).map Message.message_id).Nodup ∧
    ∀ i ∈ (de_duplicate_by_id l seen).map Message.message_id, i ∉ seen := by
  induction l generalizing seen with
  | nil => simp [de_duplicate_by_id]
  | cons m rest ih =>
      rw [de_duplicate_by_id]
      by_cases h : m.message_id ∈ seen
      · rw [if_pos h]
        exact ih seen
      · rw [if_neg h]
        obtain ⟨h1, h2⟩ := ih (m.message_id :: seen)
        refine ⟨?_, ?_⟩
        · simp only [List.map_cons, List.nodup_cons]
          exact ⟨fun hmem => (h2 _ hmem) (List.mem_cons_self _ _), h1⟩
        · intro i hi
          simp only [List.map_cons, List.mem_cons] at hi
          rcases hi with rfl | hi
          · exact h
          · exact fun hseen => (h2 i hi) (List.mem_cons_of_mem _ hseen)

/-- On a list whose ids are already distinct (and unseen), the
de-duplication pass keeps everything. -/
theorem de_duplicate_noop (l : List Message) (seen : List String)
    (hseen : ∀ m ∈ l, m.message_id ∉ seen)
    (h : (l.map Message.message_id).Nodup) : de_duplicate_by_id l seen = l := by
  induction l generalizing seen with
  | nil => simp [de_duplicate_by_id]
  | cons m rest ih =>
      rw [de_duplicate_by_id, if_neg (hseen m (List.mem_cons_self m rest))]
      simp only [List.map_cons, List.nodup_cons] at h
      rw [ih (m.message_id :: seen) ?_ h.2]
      intro x hx
      simp only [List.mem_cons]
      rintro (hx1 | hx2)
      · exact h.1 (hx1 ▸ List.mem_map_of_mem Message.message_id hx)
      · exact hseen x (List.mem_cons_of_mem m hx) hx2

/-- The post-accumulation sort is a permutation of its input. -/
theorem sort_messages_desc_perm (l : List Message) : (sort_messages_desc l).Perm l :=
  List.mergeSort_perm l _

/-- The post-accumulation sort orders messages by `last_updated`
descending. -/
theorem sort_messages_desc_sorted (l : List Message) :
    (sort_messages_desc l).Pairwise
      (fun a b => b.last_updated.orderKey ≤ a.last_updated.orderKey) := by
  have h := @List.sorted_mergeSort Message
    (fun a b : Message => decide (b.last_updated.orderKey ≤ a.last_updated.orderKey))
    (fun a b c h1 h2 => by
      simp only [decide_eq_true_eq] at h1 h2 ⊢
      exact le_trans h2 h1)
    (fun a b => by
      simp only [Bool.or_eq_true, decide_eq_true_eq]
      exact Nat.le_total b.last_updated.orderKey a.last_updated.orderKey)
    l
  exact h.imp (fun hab => of_decide_eq_true hab)

/-! ### C2: batched `get_messages` output is sorted and duplicate-free -/

/-- C2.  The result of every successful batched `get_messages` call is the
accumulated pages sorted by `last_updated` descending and de-duplicated by
`message_id` keeping the first (most recently updated) occurrence; in
particular it contains no repeated `message_id` and is sorted descending. -/
theorem get_messages_batched_result_deduplicated :
    (∀ acc : List Message,
      sort_and_deduplicate acc = de_duplicate_by_id (sort_messages_desc acc) [] ∧
      ((sort_and_deduplicate acc).map Message.message_id).Nodup ∧
      (sort_and_deduplicate acc).Pairwise
        (fun a b => b.last_updated.orderKey ≤ a.last_updated.orderKey)) ∧
    (∀ (db : EngagementDatabase) (store : FsStore) (f : MessageDict → Bool) (b : Nat)
        (msgs : List Message) (n : Nat),
      db.get_messages_fetches store f (some b) = .ok (msgs, n) →
      (∃ acc, msgs = sort_and_deduplicate acc) ∧
      (msgs.map Message.message_id).Nodup ∧
      msgs.Pairwise (fun a b => b.last_updated.orderKey ≤ a.last_updated.orderKey)) := by
  have hprops : ∀ acc : List Message,
      ((sort_and_deduplicate acc).map Message.message_id).Nodup ∧
      (sort_and_deduplicate acc).Pairwise
        (fun a b => b.last_updated.orderKey ≤ a.last_updated.orderKey) := by
    intro acc
    refine ⟨(de_duplicate_ids_nodup (sort_messages_desc acc) []).1, ?_⟩
    exact (sort_messages_desc_sorted acc).sublist (de_duplicate_sublist _ [])
  refine ⟨fun acc => ⟨rfl, hprops acc⟩, ?_⟩
  intro db store f b msgs n h
  suffices hs : ∃ acc, msgs = sort_and_deduplicate acc by
    obtain ⟨acc, rfl⟩ := hs
    exact ⟨⟨acc, rfl⟩, hprops acc⟩
  simp only [EngagementDatabase.get_messages_fetches, bind, Except.bind] at h
  split at h
  · exact absurd h (by simp)
  · split at h
    · simp only [pure, Except.pure, Except.ok.injEq, Prod.mk.injEq] at h
      exact ⟨_, h.1.symm⟩
    · split at h
      · exact absurd h (by simp)
      · simp only [pure, Except.pure, Except.ok.injEq, Prod.mk.injEq] at h
        exact ⟨_, h.1.symm⟩

/-- Witness for C2: a concrete batched call (empty result set). -/
theorem get_messages_batched_result_deduplicated_witness :
    db0.get_messages_fetches [] (fun _ => true) (some 1) = .ok ([], 1) ∧
    ((∃ acc, ([] : List Message) = sort_and_deduplicate acc) ∧
     (([] : List Message).map Message.message_id).Nodup ∧
     ([] : List Message).Pairwise
       (fun a b => b.last_updated.orderKey ≤ a.last_updated.orderKey)) := by
  have hfetch : db0.get_messages_fetches [] (fun _ => true) (some 1) = .ok ([], 1) := by
    simp [EngagementDatabase.get_messages_fetches, EngagementDatabase.msgDocs,
      sort_and_deduplicate, sort_messages_desc, de_duplicate_by_id, bind, Except.bind,
      pure, Except.pure, List.mapM, List.mapM.loop]
  exact ⟨hfetch, get_messages_batched_result_deduplicated.2 db0 [] (fun _ => true) 1 [] 1 hfetch⟩

/-! ### Compound-key order lemmas -/

/-- `keyLt` is transitive. -/
theorem keyLt_trans (a b c : Nat × String) (h1 : keyLt a b = true) (h2 : keyLt b c = true) :
    keyLt a c = true := by
  simp only [keyLt, Bool.or_eq_true, Bool.and_eq_true, decide_eq_true_eq] at h1 h2 ⊢
  rcases h1 with h1 | ⟨h1e, h1s⟩ <;> rcases h2 with h2 | ⟨h2e, h2s⟩
  · exact Or.inl (lt_trans h1 h2)
  · exact Or.inl (lt_of_lt_of_eq h1 h2e)
  · exact Or.inl (lt_of_eq_of_lt h1e h2)
  · exact Or.inr ⟨h1e.trans h2e, lt_trans h1s h2s⟩

/-- `keyLt` is irreflexive. -/
theorem keyLt_irrefl (a : Nat × String) : keyLt a a = false := by
  simp [keyLt]

/-- `keyLt` is asymmetric. -/
theorem keyLt_asymm (a b : Nat × String) (h : keyLt a b = true) : keyLt b a = false := by
  cases hba : keyLt b a
  · rfl
  · exact absurd (keyLt_trans a b a h hba) (by simp [keyLt_irrefl])

/-- `keyLt` is connex on distinct keys. -/
theorem keyLt_connex (a b : Nat × String) (h : a ≠ b) :
    keyLt a b = true ∨ keyLt b a = true := by
  simp only [keyLt, Bool.or_eq_true, Bool.and_eq_true, decide_eq_true_eq]
  rcases Nat.lt_trichotomy a.1 b.1 with h1 | h1 | h1
  · exact Or.inl (Or.inl h1)
  · rcases lt_trichotomy a.2 b.2 with h2 | h2 | h2
    · exact Or.inl (Or.inr ⟨h1, h2⟩)
    · exact absurd (Prod.ext h1 h2) h
    · exact Or.inr (Or.inr ⟨h1.symm, h2⟩)
  · exact Or.inr (Or.inl h1)

/-- The Firestore query order `qle` is transitive. -/
theorem qle_trans (a b c : MessageDict) (h1 : qle a b = true) (h2 : qle b c = true) :
    qle a c = true := by
  simp only [qle, Bool.not_eq_true'] at h1 h2 ⊢
  cases hca : keyLt (qkey c) (qkey a)
  · rfl
  · exfalso
    by_cases heq : qkey b = qkey a
    · rw [heq] at h2
      rw [hca] at h2
      cases h2
    · rcases keyLt_connex _ _ heq with hba | hab
      · rw [hba] at h1
        cases h1
      · rw [keyLt_trans _ _ _ hca hab] at h2
        cases h2

/-- The Firestore query order `qle` is total. -/
theorem qle_total (a b : MessageDict) : (qle a b || qle b a) = true := by
  simp only [qle]
  cases hx : keyLt (qkey b) (qkey a)
  · simp
  · rw [keyLt_asymm _ _ hx]
    simp

/-- The batched query's sorted document list is ordered by `qle`. -/
theorem mergeSort_qle_pairwise (l : List MessageDict) :
    (l.mergeSort qle).Pairwise (fun a b => qle a b = true) :=
  List.sorted_mergeSort (fun a b c => qle_trans a b c) (fun a b => qle_total a b) l

/-- When document ids are distinct, the `qle`-sorted list is strictly
increasing in the compound key. -/
theorem pairwise_keyLt_of_qle_nodup (l : List MessageDict)
    (hq : l.Pairwise (fun a b => qle a b = true))
    (hids : (l.map MessageDict.message_id).Nodup) :
    l.Pairwise (fun a b => keyLt (qkey a) (qkey b) = true) := by
  have hne : l.Pairwise (fun a b => a.message_id ≠ b.message_id) :=
    List.pairwise_map.mp hids
  refine (hq.and hne).imp ?_
  rintro a b ⟨h1, h2⟩
  have hkne : qkey a ≠ qkey b := by
    intro hk
    exact h2 (congrArg Prod.snd hk)
  rcases keyLt_connex _ _ hkne with hab | hba
  · exact hab
  · simp only [qle, Bool.not_eq_true'] at h1
    rw [hba] at h1
    cases h1

/-! ### Pagination lemmas -/

/-- In a strictly key-sorted list, "everything strictly after the last
element of the first `b` items" is exactly the rest of the list: the
start-after cursor never skips and never repeats a document. -/
theorem filter_after_take_last (l : List MessageDict)
    (hl : l.Pairwise (fun a c => keyLt (qkey a) (qkey c) = true)) (b : Nat)
    (x : MessageDict) (hx : (l.take b).getLast? = some x) :
    l.filter (fun d => keyLt (qkey x) (qkey d)) = l.drop b := by
  have hpair : (l.take b ++ l.drop b).Pairwise (fun a c => keyLt (qkey a) (qkey c) = true) := by
    rw [List.take_append_drop]
    exact hl
  obtain ⟨hp1, _, hcross⟩ := List.pairwise_append.mp hpair
  have hxmem : x ∈ l.take b := List.mem_of_mem_getLast? hx
  have hne : l.take b ≠ [] := by
    intro hnil
    rw [hnil] at hx
    cases hx
  have hxlast : (l.take b).getLast hne = x := by
    have h := List.getLast?_eq_getLast (l.take b) hne
    rw [hx] at h
    exact (Option.some.injEq _ _).mp h.symm
  have htake : ∀ d ∈ l.take b, keyLt (qkey x) (qkey d) = false := by
    intro d hd
    have hdecomp : (l.take b).dropLast ++ [x] = l.take b := by
      rw [← hxlast]
      exact List.dropLast_append_getLast hne
    rw [← hdecomp] at hd
    rcases List.mem_append.mp hd with hd1 | hd2
    · have hp1' : ((l.take b).dropLast ++ [x]).Pairwise
          (fun a c => keyLt (qkey a) (qkey c) = true) := by
        rw [hdecomp]
        exact hp1
      obtain ⟨_, _, hcr⟩ := List.pairwise_append.mp hp1'
      exact keyLt_asymm _ _ (hcr d hd1 x (List.mem_singleton_self x))
    · rw [List.mem_singleton.mp hd2]
      exact keyLt_irrefl _
  have hdrop : ∀ d ∈ l.drop b, keyLt (qkey x) (qkey d) = true :=
    fun d hd => hcross x hxmem d hd
  conv_lhs => rw [← List.take_append_drop b l]
  rw [List.filter_append, List.filter_eq_nil_iff.mpr (fun d hd => by rw [htake d hd]; simp),
    List.filter_eq_self.mpr hdrop, List.nil_append]

/-- When no documents lie after the cursor, the fetch loop ends after the
one empty fetch. -/
theorem fetchLoop_empty (sorted : List MessageDict) (b : Nat) (cursor : MessageDict)
    (h : sorted.filter (fun d => keyLt (qkey cursor) (qkey d)) = []) :
    fetchLoop sorted b cursor = .ok ([], 1) := by
  rw [fetchLoop, page_after, h]
  cases b
  · rfl
  · rfl

/-- The batched fetch loop (engagement_database.py lines 181-185), on a
strictly key-sorted, well-formed document list with a positive batch size,
returns exactly the documents strictly after the cursor — deserialized in
order — and performs one fetch per batch of them plus the final empty
fetch. -/
theorem fetchLoop_eq (sorted : List MessageDict) (b : Nat) (hb : 1 ≤ b)
    (hsorted : sorted.Pairwise (fun a c => keyLt (qkey a) (qkey c) = true))
    (hwf : ∀ d ∈ sorted, d.wfB = true) :
    ∀ (N : Nat) (cursor : MessageDict),
      (sorted.filter (fun d => keyLt (qkey cursor) (qkey d))).length ≤ N →
      fetchLoop sorted b cursor =
        .ok ((sorted.filter (fun d => keyLt (qkey cursor) (qkey d))).map MessageDict.toMessage,
             loopCount b (sorted.filter (fun d => keyLt (qkey cursor) (qkey d))).length) := by
  intro N
  induction N with
  | zero =>
      intro cursor hlen
      have hnil : sorted.filter (fun d => keyLt (qkey cursor) (qkey d)) = [] :=
        List.eq_nil_of_length_eq_zero (Nat.le_zero.mp hlen)
      rw [hnil]
      simp only [List.length_nil, List.map_nil]
      rw [show loopCount b 0 = 1 from by rw [loopCount]; simp]
      exact fetchLoop_empty sorted b cursor hnil
  | succ N ih =>
      intro cursor hlen
      by_cases hnil : sorted.filter (fun d => keyLt (qkey cursor) (qkey d)) = []
      · rw [hnil]
        simp only [List.length_nil, List.map_nil]
        rw [show loopCount b 0 = 1 from by rw [loopCount]; simp]
        exact fetchLoop_empty sorted b cursor hnil
      · have hbatchne : (sorted.filter (fun d => keyLt (qkey cursor) (qkey d))).take b ≠ [] := by
          rw [Ne, List.take_eq_nil_iff]
          rintro (h | h)
          · omega
          · exact hnil h
        obtain ⟨x, hx⟩ : ∃ x,
            ((sorted.filter (fun d => keyLt (qkey cursor) (qkey d))).take b).getLast? =
              some x := by
          cases hgl : ((sorted.filter (fun d => keyLt (qkey cursor) (qkey d))).take b).getLast?
          · exact absurd (List.getLast?_eq_none_iff.mp hgl) hbatchne
          · exact ⟨_, rfl⟩
        have hxmem : x ∈ sorted.filter (fun d => keyLt (qkey cursor) (qkey d)) :=
          List.take_subset _ _ (List.mem_of_mem_getLast? hx)
        have hcx : keyLt (qkey cursor) (qkey x) = true := (List.mem_filter.mp hxmem).2
        have hafter : sorted.filter (fun d => keyLt (qkey x) (qkey d)) =
            (sorted.filter (fun d => keyLt (qkey cursor) (qkey d))).drop b := by
          have h1 : sorted.filter (fun d => keyLt (qkey x) (qkey d)) =
              (sorted.filter (fun d => keyLt (qkey cursor) (qkey d))).filter
                (fun d => keyLt (qkey x) (qkey d)) := by
            rw [List.filter_filter]
            refine (List.filter_congr ?_).symm
            intro d _
            cases hd : keyLt (qkey x) (qkey d)
            · simp
            · simp [keyLt_trans _ _ _ hcx hd]
          rw [h1]
          exact filter_after_take_last _ (hsorted.filter _) b x hx
        have hlen' : (sorted.filter (fun d => keyLt (qkey x) (qkey d))).length ≤ N := by
          rw [hafter, List.length_drop]
          have hpos : 1 ≤ (sorted.filter (fun d => keyLt (qkey cursor) (qkey d))).length := by
            cases hfl : sorted.filter (fun d => keyLt (qkey cursor) (qkey d))
            · exact absurd hfl hnil
            · simp
          omega
        have hwfbatch : ∀ d ∈ (sorted.filter (fun d => keyLt (qkey cursor) (qkey d))).take b,
            d.wfB = true := fun d hd =>
          hwf d (List.mem_of_mem_filter (List.take_subset _ _ hd))
        rw [fetchLoop, page_after]
        rw [mapM_from_dict_wf _ hwfbatch, hx]
        simp only [bind, Except.bind]
        rw [ih x hlen', hafter]
        simp only [pure, Except.pure, Except.ok.injEq, Prod.mk.injEq]
        constructor
        · rw [← List.map_append, List.take_append_drop]
        · have hlc : loopCount b (sorted.filter (fun d => keyLt (qkey cursor) (qkey d))).length =
              1 + loopCount b
                ((sorted.filter (fun d => keyLt (qkey cursor) (qkey d))).length - b) := by
            rw [loopCount]
            rw [dif_neg]
            push_neg
            constructor
            · intro h0
              exact hnil (List.eq_nil_of_length_eq_zero h0)
            · omega
          rw [hlc, List.length_drop]
          omega

/-- The batched `get_messages` on a well-formed store with distinct message
ids: the result is the post-processing of every matching document
(deserialized in query order), and the number of `.get` calls is one first
page plus one fetch per batch of the remainder plus the final empty fetch. -/
theorem get_messages_fetches_batched_eq (db : EngagementDatabase) (store : FsStore)
    (f : MessageDict → Bool) (b : Nat) (hb : 1 ≤ b)
    (hwf : ∀ d ∈ db.msgDocs store, d.wfB = true)
    (hids : ((db.msgDocs store).map MessageDict.message_id).Nodup) :
    db.get_messages_fetches store f (some b) =
      .ok (sort_and_deduplicate
             ((((db.msgDocs store).filter f).mergeSort qle).map MessageDict.toMessage),
           if ((db.msgDocs store).filter f).length = 0 then 1
           else loopCount b (((db.msgDocs store).filter f).length - b) + 1) := by
  set docs := (db.msgDocs store).filter f with hdocs
  set sorted := docs.mergeSort qle with hsorted_def
  have hwfs : ∀ d ∈ sorted, d.wfB = true := by
    intro d hd
    rw [hsorted_def, List.mem_mergeSort] at hd
    exact hwf d (List.mem_of_mem_filter (hdocs ▸ hd))
  have hids_f : (docs.map MessageDict.message_id).Nodup := by
    rw [hdocs]
    exact List.Nodup.sublist (List.Sublist.map _ (List.filter_sublist _)) hids
  have hperm : sorted.Perm docs := List.mergeSort_perm docs qle
  have hids_s : (sorted.map MessageDict.message_id).Nodup :=
    ((hperm.map MessageDict.message_id).nodup_iff).mpr hids_f
  have hstrict : sorted.Pairwise (fun a c => keyLt (qkey a) (qkey c) = true) :=
    pairwise_keyLt_of_qle_nodup sorted (hsorted_def ▸ mergeSort_qle_pairwise docs) hids_s
  have hlen_s : sorted.length = docs.length := hperm.length_eq
  simp only [EngagementDatabase.get_messages_fetches, bind, Except.bind, ← hdocs,
    ← hsorted_def]
  rw [mapM_from_dict_wf _ (fun d hd => hwfs d (List.take_subset _ _ hd))]
  split
  · rename_i err heq
    exact absurd heq (by simp)
  · rename_i v heq
    injection heq with hv
    subst hv
    split
    · rename_i heq2
      rw [List.getLast?_map, Option.map_eq_none'] at heq2
      rw [List.getLast?_eq_none_iff, List.take_eq_nil_iff] at heq2
      have hs0 : sorted = [] := by
        rcases heq2 with h | h
        · omega
        · exact h
      have hd0 : docs.length = 0 := by rw [← hlen_s, hs0]; rfl
      rw [hs0]
      simp only [List.take_nil, List.map_nil]
      rw [if_pos hd0]
      rfl
    · rename_i last_msg heq2
      rw [List.getLast?_map] at heq2
      obtain ⟨x, hx, hxm⟩ := Option.map_eq_some'.mp heq2
      subst hxm
      rw [MessageDict.to_dict_base_toMessage x]
      rw [fetchLoop_eq sorted b hb hstrict hwfs
        (sorted.filter (fun d => keyLt (qkey x) (qkey d))).length x le_rfl]
      rw [filter_after_take_last sorted hstrict b x hx]
      have hne : sorted ≠ [] := by
        intro h0
        rw [h0, List.take_nil] at hx
        cases hx
      have hd_ne : ¬ docs.length = 0 := by
        rw [← hlen_s]
        intro h0
        exact hne (List.eq_nil_of_length_eq_zero h0)
      show (pure (sort_and_deduplicate (List.map MessageDict.toMessage (List.take b sorted) ++
          List.map MessageDict.toMessage (List.drop b sorted)),
          loopCount b (List.drop b sorted).length + 1) :
          Except PyError (List Message × Nat)) = _
      rw [← List.map_append, List.take_append_drop, if_neg hd_ne, List.length_drop, hlen_s]
      rfl

/-- The unbatched `get_messages` on a well-formed store: one fetch returning
every matching document deserialized in backend order. -/
theorem get_messages_fetches_unbatched_eq (db : EngagementDatabase) (store : FsStore)
    (f : MessageDict → Bool) (hwf : ∀ d ∈ db.msgDocs store, d.wfB = true) :
    db.get_messages_fetches store f none =
      .ok (((db.msgDocs store).filter f).map MessageDict.toMessage, 1) := by
  simp only [EngagementDatabase.get_messages_fetches, bind, Except.bind]
  rw [mapM_from_dict_wf _ (fun d hd => hwf d (List.mem_of_mem_filter hd))]
  rfl

/-! ### C5: batched and unbatched reads on a static store -/

/-- The ids a batched read returns are a permutation of the ids of the
documents matching its `where` predicate. -/
theorem get_messages_batched_ids_perm (db : EngagementDatabase) (store : FsStore)
    (f : MessageDict → Bool) (b : Nat) (hb : 1 ≤ b)
    (hwf : ∀ d ∈ db.msgDocs store, d.wfB = true)
    (hids : ((db.msgDocs store).map MessageDict.message_id).Nodup) :
    ∃ mb nb, db.get_messages_fetches store f (some b) = .ok (mb, nb) ∧
      (mb.map Message.message_id).Perm
        (((db.msgDocs store).filter f).map MessageDict.message_id) := by
  refine ⟨_, _, get_messages_fetches_batched_eq db store f b hb hwf hids, ?_⟩
  set docs := (db.msgDocs store).filter f with hdocs
  set sorted := docs.mergeSort qle with hsorted_def
  have hids_f : (docs.map MessageDict.message_id).Nodup := by
    rw [hdocs]
    exact List.Nodup.sublist (List.Sublist.map _ (List.filter_sublist _)) hids
  have hperm : sorted.Perm docs := List.mergeSort_perm docs qle
  have hids_s : (sorted.map MessageDict.message_id).Nodup :=
    ((hperm.map MessageDict.message_id).nodup_iff).mpr hids_f
  have hcompid : (Message.message_id ∘ MessageDict.toMessage) = MessageDict.message_id :=
    funext fun d => rfl
  have hnodup_msgs : ((sorted.map MessageDict.toMessage).map Message.message_id).Nodup := by
    rw [List.map_map, hcompid]
    exact hids_s
  have hdedup : sort_and_deduplicate (sorted.map MessageDict.toMessage) =
      sort_messages_desc (sorted.map MessageDict.toMessage) := by
    unfold sort_and_deduplicate
    refine de_duplicate_noop _ [] (fun m _ => List.not_mem_nil _) ?_
    exact (((sort_messages_desc_perm _).map Message.message_id).nodup_iff).mpr hnodup_msgs
  have hperm2 : (sort_and_deduplicate (sorted.map MessageDict.toMessage)).Perm
      (docs.map MessageDict.toMessage) := by
    rw [hdedup]
    exact (sort_messages_desc_perm _).trans (hperm.map _)
  have h3 := hperm2.map Message.message_id
  rw [List.map_map, hcompid] at h3
  exact h3

/-- A filter built only of `where` clauses sets no limit. -/
theorem applyClauses_where_limitN (cs : List QueryClause)
    (hwhere : ∀ c ∈ cs, ∃ p, c = QueryClause.whereFilter p) :
    ∀ q0 : FsQuery, q0.limitN = none → (q0.applyClauses cs).limitN = none := by
  induction cs with
  | nil => exact fun q0 h => h
  | cons c cs ih =>
      intro q0 h
      obtain ⟨p, rfl⟩ := hwhere c (List.mem_cons_self c cs)
      exact ih (fun x hx => hwhere x (List.mem_cons_of_mem _ hx)) _ h

/-- C5 counterexample.  The claim quantifies over every filter, and a
`firestore_query_filter` may chain a `limit` clause (the function's
docstring recommends limit filters together with `batch_size`).  On the
static two-message store `store_w` with the filter `limit(1)`: the
unbatched read honours the caller's limit and returns a single message id,
while the batched read replaces that limit with `.limit(batch_size)`
(engagement_database.py line 176) and paginates to exhaustion, returning
both ids — so the two calls return different id sets. -/
theorem get_messages_limit_filter_not_equivalent :
    ∃ mb nb mu,
      db0.get_messages_query store_w [QueryClause.limitTo 1] (some 1) = .ok (mb, nb) ∧
      db0.get_messages_query store_w [QueryClause.limitTo 1] none = .ok (mu, 1) ∧
      (mb.map Message.message_id).toFinset ≠ (mu.map Message.message_id).toFinset := by
  have h1 : ∀ d ∈ db0.msgDocs store_w, d.wfB = true := by decide
  have h2 : ((db0.msgDocs store_w).map MessageDict.message_id).Nodup := by decide
  obtain ⟨mb, nb, hbatch, hperm⟩ := get_messages_batched_ids_perm db0 store_w
    (FsQuery.applyClauses ⟨fun _ => true, none⟩ [QueryClause.limitTo 1]).pred 1 (le_refl 1)
    h1 h2
  have hfilter : (((db0.msgDocs store_w).filter
      (FsQuery.applyClauses ⟨fun _ => true, none⟩ [QueryClause.limitTo 1]).pred).map
        MessageDict.message_id) = ["m1", "m2"] := rfl
  rw [hfilter] at hperm
  have hunb : db0.get_messages_query store_w [QueryClause.limitTo 1] none =
      .ok ([MessageDict.toMessage mdoc1], 1) := rfl
  refine ⟨mb, nb, [MessageDict.toMessage mdoc1], hbatch, hunb, ?_⟩
  rw [List.toFinset_eq_of_perm _ _ hperm]
  decide

/-- C5 amended.  On a static, well-formed store with distinct message ids,
for every filter built only of `where` clauses and every batch size
`b ≥ 1`, the batched and unbatched `get_messages` both succeed and return
the same set of message ids.  (A filter containing a `limit` clause breaks
the equivalence, because the batched path replaces the caller's limit with
`batch_size` — see the counterexample above.) -/
theorem get_messages_where_filters_equivalent (db : EngagementDatabase) (store : FsStore)
    (cs : List QueryClause) (b : Nat) (hb : 1 ≤ b)
    (hwhere : ∀ c ∈ cs, ∃ p, c = QueryClause.whereFilter p)
    (hwf : ∀ d ∈ db.msgDocs store, d.wfB = true)
    (hids : ((db.msgDocs store).map MessageDict.message_id).Nodup) :
    ∃ mb nb mu,
      db.get_messages_query store cs (some b) = .ok (mb, nb) ∧
      db.get_messages_query store cs none = .ok (mu, 1) ∧
      (mb.map Message.message_id).toFinset = (mu.map Message.message_id).toFinset := by
  obtain ⟨mb, nb, hbatch, hperm⟩ := get_messages_batched_ids_perm db store
    (FsQuery.applyClauses ⟨fun _ => true, none⟩ cs).pred b hb hwf hids
  have hlim : (FsQuery.applyClauses ⟨fun _ => true, none⟩ cs).limitN = none :=
    applyClauses_where_limitN cs hwhere _ rfl
  have hrun : (FsQuery.applyClauses ⟨fun _ => true, none⟩ cs).run (db.msgDocs store) =
      (db.msgDocs store).filter (FsQuery.applyClauses ⟨fun _ => true, none⟩ cs).pred := by
    unfold FsQuery.run
    rw [hlim]
  have hunb : db.get_messages_query store cs none =
      .ok (((db.msgDocs store).filter
        (FsQuery.applyClauses ⟨fun _ => true, none⟩ cs).pred).map MessageDict.toMessage, 1) := by
    simp only [EngagementDatabase.get_messages_query, bind, Except.bind, hrun]
    rw [mapM_from_dict_wf _ (fun d hd => hwf d (List.mem_of_mem_filter hd))]
    rfl
  refine ⟨mb, nb, _, hbatch, hunb, ?_⟩
  have hcompid : (Message.message_id ∘ MessageDict.toMessage) = MessageDict.message_id :=
    funext fun d => rfl
  have hmu : ((((db.msgDocs store).filter
      (FsQuery.applyClauses ⟨fun _ => true, none⟩ cs).pred).map MessageDict.toMessage).map
        Message.message_id) =
      (((db.msgDocs store).filter
        (FsQuery.applyClauses ⟨fun _ => true, none⟩ cs).pred).map MessageDict.message_id) := by
    rw [List.map_map, hcompid]
  rw [hmu]
  exact List.toFinset_eq_of_perm _ _ hperm

/-- Witness for the amended C5: a concrete two-message store read through a
pure `where` filter, with batch size 1 and without batching. -/
theorem get_messages_where_filters_equivalent_witness :
    (1 ≤ 1 ∧
      (∀ c ∈ [QueryClause.whereFilter (fun d => d.direction == "in")],
        ∃ p, c = QueryClause.whereFilter p) ∧
      (∀ d ∈ db0.msgDocs store_w, d.wfB = true) ∧
      ((db0.msgDocs store_w).map MessageDict.message_id).Nodup) ∧
    (∃ mb nb mu,
      db0.get_messages_query store_w [QueryClause.whereFilter (fun d => d.direction == "in")]
        (some 1) = .ok (mb, nb) ∧
      db0.get_messages_query store_w [QueryClause.whereFilter (fun d => d.direction == "in")]
        none = .ok (mu, 1) ∧
      (mb.map Message.message_id).toFinset = (mu.map Message.message_id).toFinset) := by
  have h1 : ∀ d ∈ db0.msgDocs store_w, d.wfB = true := by decide
  have h2 : ((db0.msgDocs store_w).map MessageDict.message_id).Nodup := by decide
  have h3 : ∀ c ∈ [QueryClause.whereFilter (fun d => d.direction == "in")],
      ∃ p, c = QueryClause.whereFilter p :=
    fun c hc => ⟨_, List.mem_singleton.mp hc⟩
  exact ⟨⟨le_refl 1, h3, h1, h2⟩,
    get_messages_where_filters_equivalent db0 store_w _ 1 (le_refl 1) h3 h1 h2⟩

/-! ### C6: the 130-message pagination scenario -/

/-- Message references lie in the `messages` collection. -/
theorem in_collection_message_ref (db : EngagementDatabase) (id : String) :
    db.in_collection "messages" (db.message_ref id) = true := by
  rw [EngagementDatabase.message_ref, EngagementDatabase.in_collection_pair]
  simp

/-- The 130 generated ids are pairwise distinct. -/
theorem idOf_injective : Function.Injective idOf := by
  intro i j h
  have h2 := congrArg (fun s => s.data.length) h
  simpa [idOf] using h2

/-- The `messages` collection of the 130-message store. -/
theorem msgDocs_store130 : db0.msgDocs store130 = (List.range 130).map docOf := by
  unfold EngagementDatabase.msgDocs store130
  rw [List.filterMap_map]
  have hfun : ((fun pd : List String × StoredDoc =>
      if db0.in_collection "messages" pd.1 then
        match pd.2 with
        | .msg d => some d
        | _ => none
      else none) ∘ fun i => (db0.message_ref (idOf i), StoredDoc.msg (docOf i))) =
      (some ∘ docOf) := by
    funext i
    simp only [Function.comp_apply, in_collection_message_ref, if_true]
  rw [hfun, List.filterMap_eq_map]

/-- Every stored document of the 130-message store is well-formed. -/
theorem store130_wf : ∀ d ∈ db0.msgDocs store130, d.wfB = true := by
  rw [msgDocs_store130]
  intro d hd
  obtain ⟨i, -, rfl⟩ := List.mem_map.mp hd
  rfl

/-- The ids of the 130-message store are pairwise distinct. -/
theorem store130_ids_nodup : ((db0.msgDocs store130).map MessageDict.message_id).Nodup := by
  rw [msgDocs_store130, List.map_map]
  have hcomp : (MessageDict.message_id ∘ docOf) = idOf := funext fun i => rfl
  rw [hcomp]
  exact List.Nodup.map idOf_injective (List.nodup_range 130)

/-- `loopCount` arithmetic for the 130/50 scenario: the loop performs two
full fetches, one partial fetch and one final empty fetch after the first
page. -/
theorem loopCount_50_80 : loopCount 50 80 = 3 := by
  have h0 : loopCount 50 0 = 1 := by
    rw [loopCount]
    simp
  have h30 : loopCount 50 30 = 2 := by
    rw [loopCount, dif_neg (by omega)]
    norm_num [h0]
  rw [loopCount, dif_neg (by omega)]
  norm_num [h30]

/-- The number of matching documents in the 130-message store. -/
theorem store130_filter_length :
    ((db0.msgDocs store130).filter (fun _ => true)).length = 130 := by
  rw [List.filter_true, msgDocs_store130, List.length_map, List.length_range]

/-- C6 counterexample.  Fetching the 130 messages with `batch_size=50` takes
4 internal page fetches (pages of 50, 50, 30 and a final empty fetch that
ends the loop), not the 3 the claim states: the loop stops on an empty page,
not on the first page shorter than `batch_size`. -/
theorem get_messages_batched_130_fetch_count :
    (db0.get_messages_fetches store130 (fun _ => true) (some 50)).map Prod.snd =
      Except.ok 4 ∧ (4 : Nat) ≠ 3 := by
  refine ⟨?_, by decide⟩
  rw [get_messages_fetches_batched_eq db0 store130 (fun _ => true) 50 (by omega) store130_wf
    store130_ids_nodup]
  rw [store130_filter_length, if_neg (by omega)]
  norm_num [loopCount_50_80, Except.map]

/-- C6 amended.  Writing 130 messages with distinct ids and calling
`get_messages(batch_size=50)` returns exactly 130 messages with no repeated
id, using 4 internal page fetches: the query is ordered by
`(last_updated, message_id)` and paged with a start-after cursor, and the
loop only stops when a fetch returns zero documents (one extra fetch after
the final partial page). -/
theorem get_messages_batched_130_scenario :
    ∃ msgs, db0.get_messages_fetches store130 (fun _ => true) (some 50) = .ok (msgs, 4) ∧
      (msgs.map Message.message_id).Nodup ∧ msgs.length = 130 := by
  have heq := get_messages_fetches_batched_eq db0 store130 (fun _ => true) 50 (by omega)
    store130_wf store130_ids_nodup
  rw [store130_filter_length, if_neg (by omega)] at heq
  norm_num [loopCount_50_80] at heq
  refine ⟨_, heq, (de_duplicate_ids_nodup _ []).1, ?_⟩
  set docs := db0.msgDocs store130 with hdocs
  set sorted := docs.mergeSort qle with hsorted_def
  have hperm : sorted.Perm docs := List.mergeSort_perm docs qle
  have hids_s : (sorted.map MessageDict.message_id).Nodup :=
    ((hperm.map MessageDict.message_id).nodup_iff).mpr store130_ids_nodup
  have hcompid : (Message.message_id ∘ MessageDict.toMessage) = MessageDict.message_id :=
    funext fun d => rfl
  have hnodup_msgs : ((sorted.map MessageDict.toMessage).map Message.message_id).Nodup := by
    rw [List.map_map, hcompid]
    exact hids_s
  have hdedup : sort_and_deduplicate (sorted.map MessageDict.toMessage) =
      sort_messages_desc (sorted.map MessageDict.toMessage) := by
    unfold sort_and_deduplicate
    refine de_duplicate_noop _ [] (fun m _ => List.not_mem_nil _) ?_
    exact (((sort_messages_desc_perm _).map Message.message_id).nodup_iff).mpr hnodup_msgs
  rw [hdedup, (sort_messages_desc_perm _).length_eq, List.length_map, hperm.length_eq,
    hdocs, msgDocs_store130, List.length_map, List.length_range]
